import Mathlib

/-!
# Verification of the `zabbix_webcheck` reconciliation module

A shallow embedding of `monitoring/zabbix_webcheck.py`: the module reconciles a
declarative web-check specification against a Zabbix server.  Python values that
flow through the module (strings, ints, `None`, lists, dicts) are embedded as
`PyVal`; Python dicts are association lists with unique keys; the module's
process-terminating exits (`exit_json` / `fail_json`) and uncaught Python
exceptions are embedded as an `Outcome`; the Zabbix client is an abstract
environment of responses, and every remote call the module issues is recorded in
a trace.
-/

/-- A Python value, as used by the module: `None`, strings, integers, lists and
string-keyed dicts.  A dict is the ordered list of its key/value bindings (keys
unique). -/
inductive PyVal where
  | none
  | str (s : String)
  | int (n : Int)
  | list (xs : List PyVal)
  | dict (entries : List (String × PyVal))
  deriving Repr

mutual

/-- Decidable structural equality on `PyVal` (models Python `==` on the
string/int values the module compares). -/
def PyVal.decEq : (a b : PyVal) → Decidable (a = b)
  | .none, .none => isTrue rfl
  | .none, .str _ => isFalse (fun h => PyVal.noConfusion h)
  | .none, .int _ => isFalse (fun h => PyVal.noConfusion h)
  | .none, .list _ => isFalse (fun h => PyVal.noConfusion h)
  | .none, .dict _ => isFalse (fun h => PyVal.noConfusion h)
  | .str _, .none => isFalse (fun h => PyVal.noConfusion h)
  | .str a, .str b =>
      if h : a = b then isTrue (by rw [h]) else isFalse (fun he => h (PyVal.str.inj he))
  | .str _, .int _ => isFalse (fun h => PyVal.noConfusion h)
  | .str _, .list _ => isFalse (fun h => PyVal.noConfusion h)
  | .str _, .dict _ => isFalse (fun h => PyVal.noConfusion h)
  | .int _, .none => isFalse (fun h => PyVal.noConfusion h)
  | .int _, .str _ => isFalse (fun h => PyVal.noConfusion h)
  | .int a, .int b =>
      if h : a = b then isTrue (by rw [h]) else isFalse (fun he => h (PyVal.int.inj he))
  | .int _, .list _ => isFalse (fun h => PyVal.noConfusion h)
  | .int _, .dict _ => isFalse (fun h => PyVal.noConfusion h)
  | .list _, .none => isFalse (fun h => PyVal.noConfusion h)
  | .list _, .str _ => isFalse (fun h => PyVal.noConfusion h)
  | .list _, .int _ => isFalse (fun h => PyVal.noConfusion h)
  | .list xs, .list ys =>
      match PyVal.decEqList xs ys with
      | isTrue h => isTrue (by rw [h])
      | isFalse h => isFalse (fun he => h (PyVal.list.inj he))
  | .list _, .dict _ => isFalse (fun h => PyVal.noConfusion h)
  | .dict _, .none => isFalse (fun h => PyVal.noConfusion h)
  | .dict _, .str _ => isFalse (fun h => PyVal.noConfusion h)
  | .dict _, .int _ => isFalse (fun h => PyVal.noConfusion h)
  | .dict _, .list _ => isFalse (fun h => PyVal.noConfusion h)
  | .dict xs, .dict ys =>
      match PyVal.decEqEntries xs ys with
      | isTrue h => isTrue (by rw [h])
      | isFalse h => isFalse (fun he => h (PyVal.dict.inj he))

/-- Decidable equality for lists of `PyVal`. -/
def PyVal.decEqList : (xs ys : List PyVal) → Decidable (xs = ys)
  | [], [] => isTrue rfl
  | [], _ :: _ => isFalse (fun h => List.noConfusion h)
  | _ :: _, [] => isFalse (fun h => List.noConfusion h)
  | x :: xs, y :: ys =>
      match PyVal.decEq x y, PyVal.decEqList xs ys with
      | isTrue h1, isTrue h2 => isTrue (by rw [h1, h2])
      | isFalse h1, _ => isFalse (fun he => h1 (by injection he))
      | _, isFalse h2 => isFalse (fun he => h2 (by injection he))

/-- Decidable equality for dict binding lists. -/
def PyVal.decEqEntries : (xs ys : List (String × PyVal)) → Decidable (xs = ys)
  | [], [] => isTrue rfl
  | [], _ :: _ => isFalse (fun h => List.noConfusion h)
  | _ :: _, [] => isFalse (fun h => List.noConfusion h)
  | (k1, v1) :: xs, (k2, v2) :: ys =>
      if hk : k1 = k2 then
        match PyVal.decEq v1 v2, PyVal.decEqEntries xs ys with
        | isTrue h1, isTrue h2 => isTrue (by rw [hk, h1, h2])
        | isFalse h1, _ =>
            isFalse (fun he => by
              injection he with hhead htail
              exact h1 (congrArg Prod.snd hhead))
        | _, isFalse h2 => isFalse (fun he => h2 (by injection he))
      else
        isFalse (fun he => by
          injection he with hhead htail
          exact hk (congrArg Prod.fst hhead))

end

instance : DecidableEq PyVal := PyVal.decEq

/-- A Python dict with string keys, as the module passes them around. -/
abbrev Dict := List (String × PyVal)

/-- Python truthiness (`if v:`) for the value shapes the module handles:
`None`, the empty string, `0`, the empty list and the empty dict are falsy. -/
def pyTruthy : PyVal → Bool
  | .none => false
  | .str s => !s.isEmpty
  | .int n => n != 0
  | .list xs => !xs.isEmpty
  | .dict es => !es.isEmpty

/-- Python `str(v)` for the value shapes that get spliced into the module's
`"%s"`-formatted messages (names are strings in every claim). -/
def pyStr : PyVal → String
  | .none => "None"
  | .str s => s
  | .int n => toString n
  | .list _ => "<list>"
  | .dict _ => "<dict>"

/-- How a run of the module terminates: `exit_json(changed=..., ...)`,
`fail_json(msg=...)`, or an uncaught Python exception. -/
inductive Outcome where
  | exited (changed : Bool) (msg : Option String)
  | failed (msg : String)
  | crashed (msg : String)
  deriving Repr, DecidableEq

instance {ε α : Type} [DecidableEq ε] [DecidableEq α] : DecidableEq (Except ε α)
  | .ok a, .ok b =>
      if h : a = b then isTrue (by rw [h]) else isFalse (fun he => h (Except.ok.inj he))
  | .ok _, .error _ => isFalse (fun h => Except.noConfusion h)
  | .error _, .ok _ => isFalse (fun h => Except.noConfusion h)
  | .error a, .error b =>
      if h : a = b then isTrue (by rw [h]) else isFalse (fun he => h (Except.error.inj he))

/-- The message text carried by an `Outcome` (used when the source formats a
caught exception into a `fail_json` message). -/
def Outcome.text : Outcome → String
  | .exited _ m => m.getD ""
  | .failed m => m
  | .crashed m => m

/-- `WebCheck.get_value_by_key` (source lines 303-307): the value under `key`
if present, else `None`.  Presence of a key bound to `None` and absence are
indistinguishable through this accessor, exactly as in the source. -/
def get_value_by_key (dict_obj : Dict) (key : String) : PyVal :=
  match dict_obj.lookup key with
  | Option.some value => value
  | Option.none => PyVal.none

/-- Python dict subscript `v[key]`: `KeyError` when the key is absent,
`TypeError` when `v` is not a dict. -/
def pySubscript (v : PyVal) (key : String) : Except Outcome PyVal :=
  match v with
  | PyVal.dict d =>
      match d.lookup key with
      | Option.some w => Except.ok w
      | Option.none => Except.error (Outcome.crashed ("KeyError: " ++ key))
  | _ => Except.error (Outcome.crashed "TypeError: value is not subscriptable")

/-- Python dict assignment `d[key] = v`: replace the binding in place when the
key exists, otherwise append a new binding. -/
def dictSet (d : Dict) (key : String) (v : PyVal) : Dict :=
  if (d.lookup key).isSome then
    d.map (fun kv => if kv.1 = key then (key, v) else kv)
  else
    d ++ [(key, v)]

/-- Python `dict(a, **b)`: `a` updated/extended with `b`'s bindings. -/
def dictMerge (a b : Dict) : Dict :=
  b.foldl (fun acc kv => dictSet acc kv.1 kv.2) a

/-- Python `len(v)` for the shapes the module measures (lists, dicts,
strings); anything else raises `TypeError`. -/
def pyLen : PyVal → Except Outcome Nat
  | PyVal.list xs => Except.ok xs.length
  | PyVal.dict es => Except.ok es.length
  | PyVal.str s => Except.ok s.length
  | _ => Except.error (Outcome.crashed "TypeError: object has no len")

/-- Python `v[0]` for the shapes the module indexes: first element of a list
(or character of a string); `IndexError` when empty, `TypeError` otherwise. -/
def pyIndex0 : PyVal → Except Outcome PyVal
  | PyVal.list (x :: _) => Except.ok x
  | PyVal.list [] => Except.error (Outcome.crashed "IndexError: list index out of range")
  | PyVal.str s =>
      match s.data with
      | c :: _ => Except.ok (PyVal.str (String.mk [c]))
      | [] => Except.error (Outcome.crashed "IndexError: string index out of range")
  | _ => Except.error (Outcome.crashed "TypeError: object is not subscriptable")

/-! ## The step normalizer: `WebCheck.get_steps` (source lines 178-211) -/

/-- The optional scenario-step property whitelist
(`_scenario_step_optional_properties_list`, source line 137). -/
def scenarioStepOptionalProps : List String :=
  ["posts", "required", "status_codes", "timeout"]

/-- The optional web-scenario property whitelist
(`_web_scenario_optional_properties_list`, source lines 135-136). -/
def webScenarioOptionalProps : List String :=
  ["agent", "authentication", "delay", "http_password", "http_user", "macros", "status"]

/-- The `get_value_by_key` / `is not None` collection loop used for a step's
optional properties (source lines 199-203) and, with the scenario whitelist,
for the scenario's optional properties (source lines 374-378). -/
def collectOptionalProps (d : Dict) : List String → Dict
  | [] => []
  | p :: rest =>
      let value := get_value_by_key d p
      if value = PyVal.none then collectOptionalProps d rest
      else (p, value) :: collectOptionalProps d rest

/-- `fail_json` message for a missing/falsy step name (source line 187). -/
def msgStepName : String := "The \"name\" property in scenario steps is required and not null."

/-- `fail_json` message for a missing/falsy step url (source line 192). -/
def msgStepUrl : String := "The \"url\" property in scenario steps is required and not null."

/-- `fail_json` message for a missing/falsy step number (source line 197). -/
def msgStepNo : String := "The \"no\" property in scenario steps is required and not null."

/-- `fail_json` message for a missing/falsy steps list (source line 211). -/
def msgStepsRequired : String := "The \"steps\" property in scenario is required and not null."

/-- One required-field check in `get_steps`:
`if key in web_check_step and web_check_step[key]: ... else: fail_json(msg)`
(source lines 184-197). -/
def requiredStepField (web_check_step : Dict) (key msg : String) : Except Outcome PyVal :=
  match web_check_step.lookup key with
  | Option.some v => if pyTruthy v then Except.ok v else Except.error (Outcome.failed msg)
  | Option.none => Except.error (Outcome.failed msg)

/-- The body of `get_steps`'s `for web_check_step in web_check_steps:` loop
(source lines 183-208).  Entries that are not dicts would raise in Python when
membership-tested; every claim concerns dict-shaped entries. -/
def get_steps_loop : List PyVal → Except Outcome (List Dict)
  | [] => Except.ok []
  | entry :: rest =>
      match entry with
      | PyVal.dict web_check_step => do
          let name ← requiredStepField web_check_step "name" msgStepName
          let url ← requiredStepField web_check_step "url" msgStepUrl
          let no ← requiredStepField web_check_step "number" msgStepNo
          let optional_step_properties := collectOptionalProps web_check_step scenarioStepOptionalProps
          let step : Dict := [("name", name), ("url", url), ("no", no)]
          let tail ← get_steps_loop rest
          Except.ok (dictMerge step optional_step_properties :: tail)
      | _ => Except.error (Outcome.crashed "TypeError: scenario step is not a dict")

/-- `WebCheck.get_steps` (source lines 179-211): validate and normalize the
caller-supplied step list.  A falsy `web_check_steps` (absent/`None`/empty)
fails; a truthy non-list would be iterated by Python with shape-dependent
effects — every claim concerns an actual list, and the non-list branch is
modelled as a crash. -/
def get_steps (web_check_steps : PyVal) : Except Outcome (List Dict) :=
  if pyTruthy web_check_steps then
    match web_check_steps with
    | PyVal.list entries => get_steps_loop entries
    | _ => Except.error (Outcome.crashed "TypeError: steps is not a list")
  else
    Except.error (Outcome.failed msgStepsRequired)

/-! ## The step reconciler: `WebCheck.get_replace_steps` (source lines 213-233) -/

/-- The inner `for old_webcheck_step in old_webcheck_steps:` scan (source lines
219-228): the first existing step whose `url` equals the desired step's `url`.
Both subscripts are re-evaluated inside the loop, as in the source, so an empty
existing list never touches the desired step's `url`. -/
def findUrlMatch (new_webcheck_step : Dict) : List PyVal → Except Outcome (Option PyVal)
  | [] => Except.ok Option.none
  | old_webcheck_step :: rest => do
      let new_webcheck_step_url ← pySubscript (PyVal.dict new_webcheck_step) "url"
      let old_webcheck_step_url ← pySubscript old_webcheck_step "url"
      if new_webcheck_step_url = old_webcheck_step_url then
        Except.ok (Option.some old_webcheck_step)
      else
        findUrlMatch new_webcheck_step rest

/-- The outer `for new_webcheck_step in new_webcheck_steps:` loop of
`get_replace_steps` (source lines 217-232): on a url match, the desired step
gains the matched step's `webstepid` and the parent `httptestid` (update);
otherwise only `httptestid` (add). -/
def get_replace_steps_loop (old_webcheck_steps : List PyVal) (httptestid : PyVal) :
    List Dict → Except Outcome (List Dict)
  | [] => Except.ok []
  | new_webcheck_step :: rest => do
      let m ← findUrlMatch new_webcheck_step old_webcheck_steps
      let step ←
        match m with
        | Option.some old_webcheck_step => do
            let webstepid ← pySubscript old_webcheck_step "webstepid"
            Except.ok (dictSet (dictSet new_webcheck_step "webstepid" webstepid) "httptestid" httptestid)
        | Option.none =>
            Except.ok (dictSet new_webcheck_step "httptestid" httptestid)
      let tail ← get_replace_steps_loop old_webcheck_steps httptestid rest
      Except.ok (step :: tail)

/-- `WebCheck.get_replace_steps` (source lines 213-233).  The
`if new_webcheck_steps:` guard returns the empty accumulator for an empty
desired list, which the loop above also does. -/
def get_replace_steps (old_webcheck_steps : List PyVal) (new_webcheck_steps : List Dict)
    (httptestid : PyVal) : Except Outcome (List Dict) :=
  get_replace_steps_loop old_webcheck_steps httptestid new_webcheck_steps

/-! ## Parameter assembly: `WebCheck.get_web_check_params` (source lines 236-254) -/

/-- `WebCheck.get_web_check_params` (source lines 236-254): normalize the
desired steps; when updating (`httptestid` truthy) reconcile them against the
existing object's `steps` field, accepting either a list or a dict of existing
steps; then assemble the outgoing parameter dict and merge the optional
scenario properties over it.  When the existing `steps` field is truthy but
neither list nor dict the source sets `old_steps = None` and the subsequent
iteration in `get_replace_steps` raises `TypeError` (the normalized desired
list is never empty, since `get_steps` rejects empty input). -/
def get_web_check_params (web_check_name host_id application_id : PyVal)
    (web_check_steps : PyVal) (optional_scenario_values : Dict)
    (web_check_obj : PyVal) (httptestid : PyVal) : Except Outcome Dict := do
  let steps ← get_steps web_check_steps
  let steps ←
    if pyTruthy httptestid then do
      let objSteps ← pySubscript web_check_obj "steps"
      if pyTruthy objSteps then
        match objSteps with
        | PyVal.list old_steps => get_replace_steps old_steps steps httptestid
        | PyVal.dict entries => get_replace_steps (entries.map Prod.snd) steps httptestid
        | _ => Except.error (Outcome.crashed "TypeError: NoneType is not iterable")
      else
        Except.ok steps
    else
      Except.ok steps
  let web_check_params : Dict :=
    [("name", web_check_name), ("applicationid", application_id),
     ("hostid", host_id), ("steps", PyVal.list (steps.map PyVal.dict))]
  let web_check_params :=
    if pyTruthy httptestid then dictSet web_check_params "httptestid" httptestid
    else web_check_params
  Except.ok (dictMerge web_check_params optional_scenario_values)

/-! ## The orchestrator: `WebCheck` methods and `main` (source lines 130-390)

The Zabbix client is abstracted by a `RemoteEnv` of responses; every API call
the module issues is recorded in a trace.  Each Python method becomes one
definition returning its result (or terminal `Outcome`) together with the calls
it made, in order. -/

/-- One call issued through the Zabbix client. -/
inductive RemoteCall where
  | login
  | hostGet (host_name : PyVal)
  | applicationGet (host_id application_name : PyVal)
  | applicationCreate (host_id application_name : PyVal)
  | webcheckGet (web_check_name host_id : PyVal)
  | webcheckCreate (params : Dict)
  | webcheckUpdate (params : Dict)
  | webcheckDelete (ids : List PyVal)
  deriving Repr, DecidableEq

/-- The abstract Zabbix server: the responses the client returns to the
module's queries during one reconciliation pass.  Transport failures are
outside every claim; `login` and the mutating calls acknowledge. -/
structure RemoteEnv where
  hostList : List PyVal
  applicationList : List PyVal
  createAppResult : PyVal
  webCheckList : List PyVal

/-- `WebCheck.get_host_id` (source lines 140-149): first matching host's
`hostid`, `fail_json` when no host matches; an exception from the record access
is caught and reported via `fail_json`. -/
def get_host_id (env : RemoteEnv) (host_name : PyVal) : Except Outcome PyVal × List RemoteCall :=
  ( match env.hostList with
    | [] => Except.error (Outcome.failed ("Host not found: " ++ pyStr host_name))
    | h :: _ =>
        match pySubscript h "hostid" with
        | Except.ok host_id => Except.ok host_id
        | Except.error e =>
            Except.error (Outcome.failed
              ("Failed to get the host " ++ pyStr host_name ++ " id: " ++ e.text ++ ".")),
    [RemoteCall.hostGet host_name] )

/-- `WebCheck.create_application` (source lines 257-263): in check mode exit
with `changed=True` before any call; otherwise issue the create and return the
client's result. -/
def create_application (check_mode : Bool) (env : RemoteEnv) (hostId applicationName : PyVal) :
    Except Outcome PyVal × List RemoteCall :=
  if check_mode then
    (Except.error (Outcome.exited true Option.none), [])
  else
    (Except.ok env.createAppResult, [RemoteCall.applicationCreate hostId applicationName])

/-- `WebCheck.get_application_id` (source lines 152-165): look the application
up; with zero matches create it and, when the creation result is non-empty,
use `applicationids[0]` from it; exceptions are caught and reported via
`fail_json` (the initial `application_id = None` is returned when the creation
result is empty). -/
def get_application_id (check_mode : Bool) (env : RemoteEnv) (host_id application_name : PyVal) :
    Except Outcome PyVal × List RemoteCall :=
  let getCall := RemoteCall.applicationGet host_id application_name
  let failWith : Outcome → Outcome := fun e =>
    Outcome.failed ("Failed to get the application '" ++ pyStr application_name ++ "' id: "
      ++ e.text ++ ".")
  match env.applicationList with
  | [] =>
      match create_application check_mode env host_id application_name with
      | (Except.error o, t) => (Except.error o, getCall :: t)
      | (Except.ok applicationids, t) =>
          ( (do
              let n ← pyLen applicationids
              if n > 0 then do
                let ids ← pySubscript applicationids "applicationids"
                pyIndex0 ids
              else
                Except.ok PyVal.none).mapError failWith,
            getCall :: t )
  | a :: _ =>
      ((pySubscript a "applicationid").mapError failWith, [getCall])

/-- `WebCheck.get_web_check` (source lines 168-176): the first matching
web-check record, or `None` when the filter matches nothing. -/
def get_web_check (env : RemoteEnv) (web_check_name host_id : PyVal) :
    Except Outcome PyVal × List RemoteCall :=
  ( Except.ok (match env.webCheckList with
      | w :: _ => w
      | [] => PyVal.none),
    [RemoteCall.webcheckGet web_check_name host_id] )

/-- `WebCheck.create_web_check` (source lines 266-275): assemble the creation
parameters (outside the try-block, so a validation failure in `get_steps`
surfaces directly), short-circuit in check mode, then create and exit
`changed=True`. -/
def create_web_check (check_mode : Bool) (web_check_name host_id application_id : PyVal)
    (web_check_steps : PyVal) (scenario_optional_properties : Dict) :
    Outcome × List RemoteCall :=
  match get_web_check_params web_check_name host_id application_id web_check_steps
      scenario_optional_properties PyVal.none PyVal.none with
  | Except.error o => (o, [])
  | Except.ok web_check_params =>
      if check_mode then
        (Outcome.exited true Option.none, [])
      else
        (Outcome.exited true
           (Option.some ("Successfully added WebCheck " ++ pyStr web_check_name ++ " ")),
         [RemoteCall.webcheckCreate web_check_params])

/-- `WebCheck.update_web_check` (source lines 278-289): read the existing
object's `httptestid`, assemble the reconciled parameters (both outside the
try-block), short-circuit in check mode, then update and exit `changed=True`. -/
def update_web_check (check_mode : Bool) (web_check_obj : PyVal)
    (web_check_name host_id application_id : PyVal)
    (web_check_steps : PyVal) (scenario_optional_properties : Dict) :
    Outcome × List RemoteCall :=
  match pySubscript web_check_obj "httptestid" with
  | Except.error o => (o, [])
  | Except.ok httptestid =>
      match get_web_check_params web_check_name host_id application_id web_check_steps
          scenario_optional_properties web_check_obj httptestid with
      | Except.error o => (o, [])
      | Except.ok web_check_params =>
          if check_mode then
            (Outcome.exited true Option.none, [])
          else
            (Outcome.exited true
               (Option.some ("Successfully updated WebCheck " ++ pyStr (PyVal.dict web_check_params) ++ " ")),
             [RemoteCall.webcheckUpdate web_check_params])

/-- `WebCheck.delete_web_check` (source lines 292-301): read the object's
identifier and name (outside the try-block), short-circuit in check mode, then
delete and exit `changed=True`. -/
def delete_web_check (check_mode : Bool) (web_check_obj : PyVal) :
    Outcome × List RemoteCall :=
  match pySubscript web_check_obj "httptestid" with
  | Except.error o => (o, [])
  | Except.ok webCheckId =>
      match pySubscript web_check_obj "name" with
      | Except.error o => (o, [])
      | Except.ok webCheckName =>
          if check_mode then
            (Outcome.exited true Option.none, [])
          else
            (Outcome.exited true
               (Option.some ("Successfully deleted WebCheck " ++ pyStr webCheckName ++ " ")),
             [RemoteCall.webcheckDelete [webCheckId]])

/-- `fail_json` message for a missing `web_check_name` key (source line 337). -/
def msgWebCheckNameRequired : String := "The \"web_check_name\" property is required and not null."

/-- `fail_json` message for a falsy `host_name` (source line 352). -/
def msgHostNameRequired : String := "The \"host_name\" property is required."

/-- `fail_json` message for a falsy `application_name` (source line 367). -/
def msgApplicationNameRequired : String := "The \"application_name\" property is required."

/-- The module's invocation parameters that the claims depend on: the
`web_check` payload (a dict), the `state` option and the ambient check mode.
The connection options (`server_url`, credentials, `timeout`) only feed the
abstracted client. -/
structure ModuleParams where
  web_check : Dict
  state : String
  check_mode : Bool

/-- The `state != 'absent'` branch of `main` (source lines 364-387): validate
`application_name`, resolve the host a second time, resolve (or create) the
application, collect the optional scenario properties, then create or update
the web check according to `if not web_check_obj:`. -/
def mainPresent (p : ModuleParams) (env : RemoteEnv)
    (web_check_name host_name : PyVal) (web_check_obj : PyVal) :
    Outcome × List RemoteCall :=
  let application_name := get_value_by_key p.web_check "application_name"
  if !pyTruthy application_name then
    (Outcome.failed msgApplicationNameRequired, [])
  else
    match get_host_id env host_name with
    | (Except.error o, t) => (o, t)
    | (Except.ok host_id, t1) =>
        match get_application_id p.check_mode env host_id application_name with
        | (Except.error o, t2) => (o, t1 ++ t2)
        | (Except.ok application_id, t2) =>
            let web_check_steps := get_value_by_key p.web_check "steps"
            let scenario_optional_properties :=
              collectOptionalProps p.web_check webScenarioOptionalProps
            if !pyTruthy web_check_obj then
              let r := create_web_check p.check_mode web_check_name host_id application_id
                web_check_steps scenario_optional_properties
              (r.1, t1 ++ t2 ++ r.2)
            else
              let r := update_web_check p.check_mode web_check_obj web_check_name host_id
                application_id web_check_steps scenario_optional_properties
              (r.1, t1 ++ t2 ++ r.2)

/-- `main` (source lines 310-390): require the `web_check_name` key, log in,
require a truthy `host_name`, resolve the host, fetch the existing web check,
then branch on `state == 'absent'` and `if not web_check_obj:`. -/
def mainRun (p : ModuleParams) (env : RemoteEnv) : Outcome × List RemoteCall :=
  match p.web_check.lookup "web_check_name" with
  | Option.none => (Outcome.failed msgWebCheckNameRequired, [])
  | Option.some web_check_name =>
      let rest :=
        let host_name := get_value_by_key p.web_check "host_name"
        if !pyTruthy host_name then
          (Outcome.failed msgHostNameRequired, ([] : List RemoteCall))
        else
          match get_host_id env host_name with
          | (Except.error o, t) => (o, t)
          | (Except.ok host_id, t1) =>
              match get_web_check env web_check_name host_id with
              | (Except.error o, t2) => (o, t1 ++ t2)
              | (Except.ok web_check_obj, t2) =>
                  if p.state = "absent" then
                    if !pyTruthy web_check_obj then
                      (Outcome.exited false
                         (Option.some ("WebCheck " ++ pyStr web_check_name ++ " does not exist")),
                       t1 ++ t2)
                    else
                      let r := delete_web_check p.check_mode web_check_obj
                      (r.1, t1 ++ t2 ++ r.2)
                  else
                    let r := mainPresent p env web_check_name host_name web_check_obj
                    (r.1, t1 ++ t2 ++ r.2)
      (rest.1, RemoteCall.login :: rest.2)

/-! ## Dictionary lemmas -/

theorem lookup_cons_eq_if (k' k : String) (v : PyVal) (l : Dict) :
    ((k, v) :: l).lookup k' = if k' = k then Option.some v else l.lookup k' := by
  rw [List.lookup_cons]
  by_cases h : k' = k
  · rw [if_pos h]
    simp [h]
  · rw [if_neg h]
    have hb : (k' == k) = false := beq_eq_false_iff_ne.mpr h
    simp [hb]

theorem lookup_eq_none_of_not_mem_keys {d : Dict} {k : String}
    (h : k ∉ d.map Prod.fst) : d.lookup k = Option.none := by
  induction d with
  | nil => rfl
  | cons hd tl ih =>
      obtain ⟨k0, v0⟩ := hd
      simp only [List.map_cons, List.mem_cons] at h
      push_neg at h
      rw [lookup_cons_eq_if, if_neg h.1]
      exact ih h.2

theorem lookup_map_overwrite (k : String) (v : PyVal) :
    ∀ d : Dict, (d.lookup k).isSome = true →
      (d.map (fun kv => if kv.1 = k then (k, v) else kv)).lookup k = Option.some v := by
  intro d
  induction d with
  | nil => intro hs; simp at hs
  | cons hd tl ih =>
      obtain ⟨k0, v0⟩ := hd
      intro hs
      by_cases h : k0 = k
      · simp only [List.map_cons, if_pos h]
        rw [lookup_cons_eq_if, if_pos rfl]
      · simp only [List.map_cons]
        rw [if_neg h, lookup_cons_eq_if, if_neg (fun he => h he.symm)]
        apply ih
        rw [lookup_cons_eq_if, if_neg (fun he => h he.symm)] at hs
        exact hs

theorem lookup_append_single (k : String) (v : PyVal) :
    ∀ d : Dict, d.lookup k = Option.none →
      (d ++ [(k, v)]).lookup k = Option.some v := by
  intro d
  induction d with
  | nil => intro _; rw [List.nil_append, lookup_cons_eq_if, if_pos rfl]
  | cons hd tl ih =>
      obtain ⟨k0, v0⟩ := hd
      intro hs
      rw [lookup_cons_eq_if] at hs
      by_cases h : k = k0
      · rw [if_pos h] at hs; simp at hs
      · rw [if_neg h] at hs
        rw [List.cons_append, lookup_cons_eq_if, if_neg h]
        exact ih hs

theorem lookup_map_overwrite_ne {k' k : String} (v : PyVal) (hne : k' ≠ k) :
    ∀ d : Dict,
      (d.map (fun kv => if kv.1 = k then (k, v) else kv)).lookup k' = d.lookup k' := by
  intro d
  induction d with
  | nil => rfl
  | cons hd tl ih =>
      obtain ⟨k0, v0⟩ := hd
      by_cases h : k0 = k
      · simp only [List.map_cons, if_pos h]
        rw [lookup_cons_eq_if, if_neg hne, lookup_cons_eq_if, if_neg (h ▸ hne)]
        exact ih
      · simp only [List.map_cons]
        rw [if_neg h, lookup_cons_eq_if, lookup_cons_eq_if]
        by_cases h2 : k' = k0
        · rw [if_pos h2, if_pos h2]
        · rw [if_neg h2, if_neg h2]
          exact ih

theorem lookup_append_single_ne {k' k : String} (v : PyVal) (hne : k' ≠ k) :
    ∀ d : Dict, (d ++ [(k, v)]).lookup k' = d.lookup k' := by
  intro d
  induction d with
  | nil => rw [List.nil_append, lookup_cons_eq_if, if_neg hne]
  | cons hd tl ih =>
      obtain ⟨k0, v0⟩ := hd
      rw [List.cons_append, lookup_cons_eq_if, lookup_cons_eq_if]
      by_cases h2 : k' = k0
      · rw [if_pos h2, if_pos h2]
      · rw [if_neg h2, if_neg h2]
        exact ih

theorem lookup_dictSet_self (d : Dict) (k : String) (v : PyVal) :
    (dictSet d k v).lookup k = Option.some v := by
  unfold dictSet
  split
  · exact lookup_map_overwrite k v d (by assumption)
  · rename_i hs
    exact lookup_append_single k v d (Option.not_isSome_iff_eq_none.mp hs)

theorem lookup_dictSet_ne (d : Dict) {k' k : String} (v : PyVal) (hne : k' ≠ k) :
    (dictSet d k v).lookup k' = d.lookup k' := by
  unfold dictSet
  split
  · exact lookup_map_overwrite_ne v hne d
  · exact lookup_append_single_ne v hne d

theorem dictMerge_nil (a : Dict) : dictMerge a [] = a := rfl

theorem dictMerge_cons (a : Dict) (k : String) (v : PyVal) (b : Dict) :
    dictMerge a ((k, v) :: b) = dictMerge (dictSet a k v) b := rfl

theorem lookup_dictMerge_right_none {b : Dict} {k : String} :
    ∀ a : Dict, b.lookup k = Option.none → (dictMerge a b).lookup k = a.lookup k := by
  induction b with
  | nil => intro a _; rfl
  | cons hd tl ih =>
      obtain ⟨k0, v0⟩ := hd
      intro a h
      rw [lookup_cons_eq_if] at h
      by_cases h2 : k = k0
      · rw [if_pos h2] at h; simp at h
      · rw [if_neg h2] at h
        rw [dictMerge_cons, ih _ h, lookup_dictSet_ne _ _ h2]

theorem lookup_dictMerge_right_some {b : Dict} {k : String} {v : PyVal} :
    ∀ a : Dict, (b.map Prod.fst).Nodup → b.lookup k = Option.some v →
      (dictMerge a b).lookup k = Option.some v := by
  induction b with
  | nil => intro a _ h; simp at h
  | cons hd tl ih =>
      obtain ⟨k0, v0⟩ := hd
      intro a hnd h
      simp only [List.map_cons, List.nodup_cons] at hnd
      rw [lookup_cons_eq_if] at h
      by_cases h2 : k = k0
      · rw [if_pos h2] at h
        rw [dictMerge_cons,
          lookup_dictMerge_right_none _ (h2 ▸ lookup_eq_none_of_not_mem_keys hnd.1),
          h2, lookup_dictSet_self]
        exact h
      · rw [if_neg h2] at h
        rw [dictMerge_cons]
        exact ih _ hnd.2 h

/-! ## Lemmas about the optional-property collection loop -/

theorem collectOptionalProps_cons (d : Dict) (p : String) (rest : List String) :
    collectOptionalProps d (p :: rest) =
      if get_value_by_key d p = PyVal.none then collectOptionalProps d rest
      else (p, get_value_by_key d p) :: collectOptionalProps d rest := rfl

theorem collectOptionalProps_lookup_not_mem {d : Dict} {k : String} :
    ∀ props : List String, k ∉ props →
      (collectOptionalProps d props).lookup k = Option.none := by
  intro props
  induction props with
  | nil => intro _; rfl
  | cons p rest ih =>
      intro h
      simp only [List.mem_cons] at h
      push_neg at h
      rw [collectOptionalProps_cons]
      by_cases hval : get_value_by_key d p = PyVal.none
      · rw [if_pos hval]
        exact ih h.2
      · rw [if_neg hval, lookup_cons_eq_if, if_neg h.1]
        exact ih h.2

theorem collectOptionalProps_lookup_some {d : Dict} {k : String} {v : PyVal} :
    ∀ props : List String, (collectOptionalProps d props).lookup k = Option.some v →
      get_value_by_key d k = v ∧ v ≠ PyVal.none ∧ k ∈ props := by
  intro props
  induction props with
  | nil => intro h; simp [collectOptionalProps] at h
  | cons p rest ih =>
      intro h
      rw [collectOptionalProps_cons] at h
      by_cases hval : get_value_by_key d p = PyVal.none
      · rw [if_pos hval] at h
        obtain ⟨h1, h2, h3⟩ := ih h
        exact ⟨h1, h2, List.mem_cons_of_mem _ h3⟩
      · rw [if_neg hval, lookup_cons_eq_if] at h
        by_cases h2 : k = p
        · rw [if_pos h2] at h
          have hv : v = get_value_by_key d p := (Option.some.inj h).symm
          exact ⟨h2 ▸ hv.symm, fun he => hval (hv ▸ he), h2 ▸ List.mem_cons_self _ _⟩
        · rw [if_neg h2] at h
          obtain ⟨h1, h4, h3⟩ := ih h
          exact ⟨h1, h4, List.mem_cons_of_mem _ h3⟩

theorem collectOptionalProps_lookup_mem {d : Dict} {k : String} {v : PyVal}
    (hv : get_value_by_key d k = v) (hne : v ≠ PyVal.none) :
    ∀ props : List String, k ∈ props →
      (collectOptionalProps d props).lookup k = Option.some v := by
  intro props
  induction props with
  | nil => intro h; simp at h
  | cons p rest ih =>
      intro h
      rw [collectOptionalProps_cons]
      by_cases h2 : k = p
      · rw [← h2, hv, if_neg hne, lookup_cons_eq_if, if_pos rfl]
      · by_cases hval : get_value_by_key d p = PyVal.none
        · rw [if_pos hval]
          exact ih ((List.mem_cons.mp h).resolve_left h2)
        · rw [if_neg hval, lookup_cons_eq_if, if_neg h2]
          exact ih ((List.mem_cons.mp h).resolve_left h2)

theorem collectOptionalProps_keys_sublist (d : Dict) :
    ∀ props : List String, ((collectOptionalProps d props).map Prod.fst).Sublist props := by
  intro props
  induction props with
  | nil => exact List.Sublist.refl _
  | cons p rest ih =>
      rw [collectOptionalProps_cons]
      by_cases hval : get_value_by_key d p = PyVal.none
      · rw [if_pos hval]
        exact ih.cons p
      · rw [if_neg hval]
        simpa using ih.cons₂ p

theorem collectOptionalProps_keys_nodup (d : Dict) {props : List String}
    (h : props.Nodup) : ((collectOptionalProps d props).map Prod.fst).Nodup :=
  (collectOptionalProps_keys_sublist d props).nodup h

/-! ## Characterizing the step normalizer -/

/-- `isOk` test for the embedded `Except` results. -/
def exceptOkB {α : Type} : Except Outcome α → Bool
  | Except.ok _ => true
  | Except.error _ => false

/-- The source's required-field test `key in d and d[key]` as a Boolean. -/
def hasTruthyKey (d : Dict) (k : String) : Bool :=
  match d.lookup k with
  | Option.some v => pyTruthy v
  | Option.none => false

/-- A raw scenario step passes `get_steps`'s three required-field checks. -/
def entryValid (web_check_step : Dict) : Bool :=
  hasTruthyKey web_check_step "name" && hasTruthyKey web_check_step "url" &&
    hasTruthyKey web_check_step "number"

/-- The normalized step `get_steps` builds for a valid raw entry: the three
required fields under their outgoing names (`number` becomes `no`) merged with
the optional properties present and non-`None` in the entry. -/
def normEntry (web_check_step : Dict) : Dict :=
  dictMerge
    [("name", get_value_by_key web_check_step "name"),
     ("url", get_value_by_key web_check_step "url"),
     ("no", get_value_by_key web_check_step "number")]
    (collectOptionalProps web_check_step scenarioStepOptionalProps)

theorem requiredStepField_of_truthy {d : Dict} {k : String} (msg : String)
    (h : hasTruthyKey d k = true) :
    requiredStepField d k msg = Except.ok (get_value_by_key d k) := by
  unfold hasTruthyKey at h
  unfold requiredStepField get_value_by_key
  cases hl : d.lookup k with
  | none => rw [hl] at h; exact absurd h (by simp)
  | some v =>
      rw [hl] at h
      have hv : pyTruthy v = true := h
      simp [hv]

theorem requiredStepField_of_not_truthy {d : Dict} {k : String} (msg : String)
    (h : hasTruthyKey d k = false) :
    requiredStepField d k msg = Except.error (Outcome.failed msg) := by
  unfold hasTruthyKey at h
  unfold requiredStepField
  cases hl : d.lookup k with
  | none => simp
  | some v =>
      rw [hl] at h
      have hv : pyTruthy v = false := h
      simp [hv]

theorem requiredStepField_ok {d : Dict} {k msg : String} {v : PyVal}
    (h : requiredStepField d k msg = Except.ok v) :
    v = get_value_by_key d k ∧ hasTruthyKey d k = true := by
  unfold requiredStepField at h
  cases hl : d.lookup k with
  | none => rw [hl] at h; exact absurd h (by simp)
  | some w =>
      rw [hl] at h
      have h2 : (if pyTruthy w = true then (Except.ok w : Except Outcome PyVal)
          else Except.error (Outcome.failed msg)) = Except.ok v := h
      by_cases ht : pyTruthy w = true
      · rw [if_pos ht] at h2
        constructor
        · unfold get_value_by_key
          rw [hl]
          exact (Except.ok.inj h2).symm
        · unfold hasTruthyKey
          rw [hl]
          exact ht
      · rw [if_neg ht] at h2
        exact absurd h2 (by simp)

theorem get_steps_loop_isOk : ∀ es : List Dict,
    exceptOkB (get_steps_loop (es.map PyVal.dict)) = es.all entryValid := by
  intro es
  induction es with
  | nil => rfl
  | cons d rest ih =>
      simp only [List.map_cons, List.all_cons]
      cases h1 : hasTruthyKey d "name" with
      | false =>
          simp only [get_steps_loop, requiredStepField_of_not_truthy _ h1]
          simp [Bind.bind, Except.bind, exceptOkB, entryValid, h1]
      | true =>
      cases h2 : hasTruthyKey d "url" with
      | false =>
          simp only [get_steps_loop, requiredStepField_of_truthy _ h1,
            requiredStepField_of_not_truthy _ h2]
          simp [Bind.bind, Except.bind, exceptOkB, entryValid, h2]
      | true =>
      cases h3 : hasTruthyKey d "number" with
      | false =>
          simp only [get_steps_loop, requiredStepField_of_truthy _ h1,
            requiredStepField_of_truthy _ h2, requiredStepField_of_not_truthy _ h3]
          simp [Bind.bind, Except.bind, exceptOkB, entryValid, h3]
      | true =>
          simp only [get_steps_loop, requiredStepField_of_truthy _ h1,
            requiredStepField_of_truthy _ h2, requiredStepField_of_truthy _ h3]
          cases hrec : get_steps_loop (rest.map PyVal.dict) with
          | ok tail =>
              rw [hrec] at ih
              simp [Bind.bind, Except.bind, exceptOkB, entryValid, h1, h2, h3, ← ih]
          | error e =>
              rw [hrec] at ih
              simp [Bind.bind, Except.bind, exceptOkB, entryValid, h1, h2, h3, ← ih]

theorem get_steps_loop_of_all_valid : ∀ es : List Dict,
    (∀ d ∈ es, entryValid d = true) →
    get_steps_loop (es.map PyVal.dict) = Except.ok (es.map normEntry) := by
  intro es
  induction es with
  | nil => intro _; rfl
  | cons d rest ih =>
      intro hv
      have hd := hv d (List.mem_cons_self _ _)
      have h1 : hasTruthyKey d "name" = true := by
        simp only [entryValid, Bool.and_eq_true] at hd; exact hd.1.1
      have h2 : hasTruthyKey d "url" = true := by
        simp only [entryValid, Bool.and_eq_true] at hd; exact hd.1.2
      have h3 : hasTruthyKey d "number" = true := by
        simp only [entryValid, Bool.and_eq_true] at hd; exact hd.2
      simp only [List.map_cons, get_steps_loop, requiredStepField_of_truthy _ h1,
        requiredStepField_of_truthy _ h2, requiredStepField_of_truthy _ h3,
        ih (fun x hx => hv x (List.mem_cons_of_mem _ hx))]
      simp [Bind.bind, Except.bind, normEntry]

theorem get_steps_loop_shape : ∀ (lst : List PyVal) (ns : List Dict),
    get_steps_loop lst = Except.ok ns →
    ∀ n ∈ ns, ∃ d, entryValid d = true ∧ n = normEntry d := by
  intro lst
  induction lst with
  | nil =>
      intro ns h n hn
      have : ([] : List Dict) = ns := Except.ok.inj h
      subst this
      simp at hn
  | cons entry rest ih =>
      intro ns h n hn
      cases entry with
      | dict d =>
          simp only [get_steps_loop] at h
          cases hname : requiredStepField d "name" msgStepName with
          | error e => rw [hname] at h; exact absurd h (by simp [Bind.bind, Except.bind])
          | ok v1 =>
          rw [hname] at h
          cases hurl : requiredStepField d "url" msgStepUrl with
          | error e => rw [hurl] at h; exact absurd h (by simp [Bind.bind, Except.bind])
          | ok v2 =>
          rw [hurl] at h
          cases hno : requiredStepField d "number" msgStepNo with
          | error e => rw [hno] at h; exact absurd h (by simp [Bind.bind, Except.bind])
          | ok v3 =>
          rw [hno] at h
          cases hrec : get_steps_loop rest with
          | error e => rw [hrec] at h; exact absurd h (by simp [Bind.bind, Except.bind])
          | ok tail =>
          rw [hrec] at h
          simp only [Bind.bind, Except.bind] at h
          have heq := Except.ok.inj h
          subst heq
          rcases List.mem_cons.mp hn with hhead | htail
          · obtain ⟨e1, t1⟩ := requiredStepField_ok hname
            obtain ⟨e2, t2⟩ := requiredStepField_ok hurl
            obtain ⟨e3, t3⟩ := requiredStepField_ok hno
            refine ⟨d, by simp [entryValid, t1, t2, t3], ?_⟩
            rw [hhead, normEntry, ← e1, ← e2, ← e3]
          · exact ih tail hrec n htail
      | none => exact absurd h (by simp [get_steps_loop])
      | str s => exact absurd h (by simp [get_steps_loop])
      | int i => exact absurd h (by simp [get_steps_loop])
      | list xs => exact absurd h (by simp [get_steps_loop])

theorem get_steps_loop_length : ∀ (lst : List PyVal) (ns : List Dict),
    get_steps_loop lst = Except.ok ns → ns.length = lst.length := by
  intro lst
  induction lst with
  | nil =>
      intro ns h
      have : ([] : List Dict) = ns := Except.ok.inj h
      subst this
      rfl
  | cons entry rest ih =>
      intro ns h
      cases entry with
      | dict d =>
          simp only [get_steps_loop] at h
          cases hname : requiredStepField d "name" msgStepName with
          | error e => rw [hname] at h; exact absurd h (by simp [Bind.bind, Except.bind])
          | ok v1 =>
          rw [hname] at h
          cases hurl : requiredStepField d "url" msgStepUrl with
          | error e => rw [hurl] at h; exact absurd h (by simp [Bind.bind, Except.bind])
          | ok v2 =>
          rw [hurl] at h
          cases hno : requiredStepField d "number" msgStepNo with
          | error e => rw [hno] at h; exact absurd h (by simp [Bind.bind, Except.bind])
          | ok v3 =>
          rw [hno] at h
          cases hrec : get_steps_loop rest with
          | error e => rw [hrec] at h; exact absurd h (by simp [Bind.bind, Except.bind])
          | ok tail =>
          rw [hrec] at h
          simp only [Bind.bind, Except.bind] at h
          have heq := Except.ok.inj h
          subst heq
          simp [ih tail hrec]
      | none => exact absurd h (by simp [get_steps_loop])
      | str s => exact absurd h (by simp [get_steps_loop])
      | int i => exact absurd h (by simp [get_steps_loop])
      | list xs => exact absurd h (by simp [get_steps_loop])

/-! ## Lookups on normalized steps -/

theorem normEntry_lookup_url (d : Dict) :
    (normEntry d).lookup "url" = Option.some (get_value_by_key d "url") := by
  unfold normEntry
  rw [lookup_dictMerge_right_none _
      (collectOptionalProps_lookup_not_mem scenarioStepOptionalProps (by decide)),
    lookup_cons_eq_if, if_neg (by decide), lookup_cons_eq_if, if_pos rfl]

theorem normEntry_lookup_fresh (d : Dict) {k : String} (h1 : k ≠ "name")
    (h2 : k ≠ "url") (h3 : k ≠ "no") (h4 : k ∉ scenarioStepOptionalProps) :
    (normEntry d).lookup k = Option.none := by
  unfold normEntry
  rw [lookup_dictMerge_right_none _
      (collectOptionalProps_lookup_not_mem scenarioStepOptionalProps h4),
    lookup_cons_eq_if, if_neg h1, lookup_cons_eq_if, if_neg h2,
    lookup_cons_eq_if, if_neg h3]
  rfl

theorem normEntry_lookup_opt (d : Dict) {k : String} (hk : k ∈ scenarioStepOptionalProps) :
    (normEntry d).lookup k = (collectOptionalProps d scenarioStepOptionalProps).lookup k := by
  unfold normEntry
  cases hc : (collectOptionalProps d scenarioStepOptionalProps).lookup k with
  | some v => exact lookup_dictMerge_right_some _ (collectOptionalProps_keys_nodup d (by decide)) hc
  | none =>
      rw [lookup_dictMerge_right_none _ hc, lookup_cons_eq_if,
        if_neg (fun he => absurd (he ▸ hk) (by decide)),
        lookup_cons_eq_if, if_neg (fun he => absurd (he ▸ hk) (by decide)),
        lookup_cons_eq_if, if_neg (fun he => absurd (he ▸ hk) (by decide))]
      rfl

/-! ## The reconciliation contract, as the spec words it -/

/-- The url field of an existing remote step, as the spec's reconciliation
contract reads it (spec §3: each existing step carries a url). -/
def specStepUrl : PyVal → PyVal
  | PyVal.dict d => get_value_by_key d "url"
  | _ => PyVal.none

/-- The remote step identifier of an existing remote step (spec §3). -/
def specStepId : PyVal → PyVal
  | PyVal.dict d => get_value_by_key d "webstepid"
  | _ => PyVal.none

/-- The spec's matching rule (§4.3): "for each desired step, scan existing
steps (original remote order) for the first one with an equal url field". -/
def specFirstUrlMatch (old_webcheck_steps : List PyVal) (url : PyVal) : Option PyVal :=
  old_webcheck_steps.find? (fun o => specStepUrl o == url)

/-- The reconciled step list as the spec words it (§4.3, claim C1): output in
desired-step order; a desired step whose url matches carries the first matching
existing step's remote identifier plus the parent web-check identifier; an
unmatched desired step carries only the parent identifier; existing steps whose
url appears in no desired step contribute nothing. -/
def specReconcileSteps (old_webcheck_steps : List PyVal) (new_webcheck_steps : List Dict)
    (httptestid : PyVal) : List Dict :=
  new_webcheck_steps.map (fun n =>
    match specFirstUrlMatch old_webcheck_steps (get_value_by_key n "url") with
    | Option.some o => dictSet (dictSet n "webstepid" (specStepId o)) "httptestid" httptestid
    | Option.none => dictSet n "httptestid" httptestid)

/-- An existing remote step as delivered by the server: a record carrying at
least a url and a remote step identifier. -/
def isWfOldStep : PyVal → Bool
  | PyVal.dict d => (d.lookup "url").isSome && (d.lookup "webstepid").isSome
  | _ => false

theorem findUrlMatch_eq_spec {n : Dict} (hn : (n.lookup "url").isSome = true) :
    ∀ olds : List PyVal, (∀ o ∈ olds, isWfOldStep o = true) →
      findUrlMatch n olds =
        Except.ok (specFirstUrlMatch olds (get_value_by_key n "url")) := by
  obtain ⟨nu, hnu⟩ := Option.isSome_iff_exists.mp hn
  have hgn : get_value_by_key n "url" = nu := by unfold get_value_by_key; rw [hnu]
  intro olds
  induction olds with
  | nil => intro _; rfl
  | cons o rest ih =>
      intro hwf
      have ho := hwf o (List.mem_cons_self _ _)
      cases o with
      | dict d =>
          simp only [isWfOldStep, Bool.and_eq_true] at ho
          obtain ⟨u, hu⟩ := Option.isSome_iff_exists.mp ho.1
          have hgu : specStepUrl (PyVal.dict d) = u := by
            simp only [specStepUrl]; unfold get_value_by_key; rw [hu]
          simp only [findUrlMatch, pySubscript, hnu, hu]
          by_cases he : nu = u
          · simp only [Bind.bind, Except.bind, if_pos he]
            rw [specFirstUrlMatch,
              List.find?_cons_of_pos _ (by rw [hgu, hgn, beq_iff_eq, he])]
          · simp only [Bind.bind, Except.bind, if_neg he]
            rw [ih (fun x hx => hwf x (List.mem_cons_of_mem _ hx)), specFirstUrlMatch,
              specFirstUrlMatch,
              List.find?_cons_of_neg _ (by rw [hgu, hgn, beq_iff_eq]; exact fun hc => he hc.symm)]
      | none => simp [isWfOldStep] at ho
      | str s => simp [isWfOldStep] at ho
      | int i => simp [isWfOldStep] at ho
      | list xs => simp [isWfOldStep] at ho

theorem get_replace_steps_eq_spec {olds : List PyVal}
    (hwf : ∀ o ∈ olds, isWfOldStep o = true) (httptestid : PyVal) :
    ∀ news : List Dict, (∀ n ∈ news, (n.lookup "url").isSome = true) →
      get_replace_steps olds news httptestid =
        Except.ok (specReconcileSteps olds news httptestid) := by
  intro news
  induction news with
  | nil => intro _; rfl
  | cons n rest ih =>
      intro hns
      have hn := hns n (List.mem_cons_self _ _)
      simp only [get_replace_steps] at ih ⊢
      simp only [get_replace_steps_loop, findUrlMatch_eq_spec hn olds hwf]
      cases hm : specFirstUrlMatch olds (get_value_by_key n "url") with
      | none =>
          simp only [Bind.bind, Except.bind,
            ih (fun x hx => hns x (List.mem_cons_of_mem _ hx))]
          simp [specReconcileSteps, hm]
      | some o =>
          have ho := hwf o (List.mem_of_find?_eq_some hm)
          cases o with
          | dict d =>
              simp only [isWfOldStep, Bool.and_eq_true] at ho
              obtain ⟨w, hw⟩ := Option.isSome_iff_exists.mp ho.2
              have hgw : specStepId (PyVal.dict d) = w := by
                simp only [specStepId]; unfold get_value_by_key; rw [hw]
              simp only [Bind.bind, Except.bind, pySubscript, hw,
                ih (fun x hx => hns x (List.mem_cons_of_mem _ hx))]
              simp [specReconcileSteps, hm, hgw]
          | none => simp [isWfOldStep] at ho
          | str s => simp [isWfOldStep] at ho
          | int i => simp [isWfOldStep] at ho
          | list xs => simp [isWfOldStep] at ho

theorem get_steps_cons (e : PyVal) (rest : List PyVal) :
    get_steps (PyVal.list (e :: rest)) = get_steps_loop (e :: rest) := rfl

/-! ## Claim C1 -/

/-- C1: for every update reconciliation over well-formed inputs (existing steps
carry `url` and `webstepid`, desired steps carry `url`), `get_replace_steps`
returns exactly the spec's reconciled list: desired-step order, the first url
match (in original remote order) contributing its `webstepid` plus the parent
`httptestid`, unmatched desired steps carrying only `httptestid`, and existing
steps with unmatched urls absent (full replace, not union). -/
theorem C1_get_replace_steps_matches_spec (olds : List PyVal) (news : List Dict)
    (httptestid : PyVal)
    (hwf : ∀ o ∈ olds, isWfOldStep o = true)
    (hns : ∀ n ∈ news, (n.lookup "url").isSome = true) :
    get_replace_steps olds news httptestid =
      Except.ok (specReconcileSteps olds news httptestid) :=
  get_replace_steps_eq_spec hwf httptestid news hns

/-- The spec's §8 concrete example: existing steps `http://a` (id 101) and
`http://b` (id 102). -/
def oldStepA : PyVal := PyVal.dict [("url", PyVal.str "http://a"), ("webstepid", PyVal.int 101)]

/-- The second existing step of the spec's §8 example. -/
def oldStepB : PyVal := PyVal.dict [("url", PyVal.str "http://b"), ("webstepid", PyVal.int 102)]

/-- Desired step with url `http://b` of the spec's §8 example. -/
def desStepB : Dict := [("name", PyVal.str "b"), ("url", PyVal.str "http://b"), ("no", PyVal.int 1)]

/-- Desired step with url `http://c` of the spec's §8 example. -/
def desStepC : Dict := [("name", PyVal.str "c"), ("url", PyVal.str "http://c"), ("no", PyVal.int 2)]

/-- Witness for C1 at the spec's §8 example: the step with url `http://b`
carries remote id 102, the step with url `http://c` only the parent id 7, and
the existing step with url `http://a` does not appear. -/
theorem C1_get_replace_steps_matches_spec_witness :
    get_replace_steps [oldStepA, oldStepB] [desStepB, desStepC] (PyVal.int 7) =
      Except.ok (specReconcileSteps [oldStepA, oldStepB] [desStepB, desStepC] (PyVal.int 7))
    ∧ specReconcileSteps [oldStepA, oldStepB] [desStepB, desStepC] (PyVal.int 7) =
      [[("name", PyVal.str "b"), ("url", PyVal.str "http://b"), ("no", PyVal.int 1),
        ("webstepid", PyVal.int 102), ("httptestid", PyVal.int 7)],
       [("name", PyVal.str "c"), ("url", PyVal.str "http://c"), ("no", PyVal.int 2),
        ("httptestid", PyVal.int 7)]] :=
  ⟨C1_get_replace_steps_matches_spec _ _ _ (by decide) (by decide), by decide⟩

/-! ## Claim C3 -/

/-- C3: `get_steps` fails exactly when the raw step list is absent or empty or
some entry lacks a truthy name, url or sequence number; on success it returns
one normalized step per entry, in input order, and an optional property occurs
in a normalized step only if it occurs in the raw entry, with the same value
(never defaulted). -/
theorem C3_get_steps_contract (es : List Dict) :
    get_steps PyVal.none = Except.error (Outcome.failed msgStepsRequired)
    ∧ get_steps (PyVal.list []) = Except.error (Outcome.failed msgStepsRequired)
    ∧ ((∃ ss, get_steps (PyVal.list (es.map PyVal.dict)) = Except.ok ss)
        ↔ (es ≠ [] ∧ ∀ d ∈ es, entryValid d = true))
    ∧ (es ≠ [] → (∀ d ∈ es, entryValid d = true) →
        get_steps (PyVal.list (es.map PyVal.dict)) = Except.ok (es.map normEntry))
    ∧ (∀ d : Dict, ∀ k ∈ scenarioStepOptionalProps, ∀ v : PyVal,
        (normEntry d).lookup k = Option.some v → d.lookup k = Option.some v) := by
  refine ⟨rfl, rfl, ?_, ?_, ?_⟩
  · cases es with
    | nil =>
        constructor
        · intro ⟨ss, hss⟩
          exact absurd hss (by simp [get_steps, pyTruthy])
        · intro ⟨hne, _⟩
          exact absurd rfl hne
    | cons e es' =>
        constructor
        · intro ⟨ss, hss⟩
          refine ⟨List.cons_ne_nil _ _, ?_⟩
          have hok := get_steps_loop_isOk (e :: es')
          rw [List.map_cons, get_steps_cons] at hss
          rw [List.map_cons, hss] at hok
          simp only [exceptOkB] at hok
          exact fun d hd => List.all_eq_true.mp hok.symm d hd
        · intro ⟨_, hv⟩
          rw [List.map_cons, get_steps_cons, ← List.map_cons]
          exact ⟨_, get_steps_loop_of_all_valid _ hv⟩
  · intro hne hv
    cases es with
    | nil => exact absurd rfl hne
    | cons e es' =>
        rw [List.map_cons, get_steps_cons, ← List.map_cons]
        exact get_steps_loop_of_all_valid _ hv
  · intro d k hk v h
    rw [normEntry_lookup_opt d hk] at h
    obtain ⟨hg, hvne, _⟩ := collectOptionalProps_lookup_some _ h
    unfold get_value_by_key at hg
    cases hl : d.lookup k with
    | none => rw [hl] at hg; exact absurd hg.symm hvne
    | some w =>
        rw [hl] at hg
        have hw : w = v := hg
        rw [hw]

/-- A valid raw step with an optional `status_codes` property, used to witness
C3's success branch. -/
def sampleRawStep : Dict :=
  [("name", PyVal.str "WebSite Check1"), ("url", PyVal.str "http://www.example1.com"),
   ("number", PyVal.int 1), ("status_codes", PyVal.int 200)]

/-- Witness for C3: one valid entry normalizes to one step. -/
theorem C3_get_steps_contract_witness :
    get_steps (PyVal.list [PyVal.dict sampleRawStep]) = Except.ok [normEntry sampleRawStep] :=
  (C3_get_steps_contract [sampleRawStep]).2.2.2.1 (by decide) (by decide)

/-! ## Claim C10 -/

/-- C10: the normalizer's presence tests are asymmetric.  A required field that
is present but falsy (sequence number `0`, empty-string name) is rejected as if
missing, while an optional property present with a falsy non-`None` value is
still copied into the normalized step (optional properties are filtered only by
an is-not-`None` test). -/
theorem C10_asymmetric_presence_tests (d : Dict) (rest : List PyVal) :
    (d.lookup "number" = Option.some (PyVal.int 0) →
      hasTruthyKey d "name" = true → hasTruthyKey d "url" = true →
      get_steps (PyVal.list (PyVal.dict d :: rest)) = Except.error (Outcome.failed msgStepNo))
    ∧ (d.lookup "name" = Option.some (PyVal.str "") →
      get_steps (PyVal.list (PyVal.dict d :: rest)) = Except.error (Outcome.failed msgStepName))
    ∧ (entryValid d = true → ∀ v : PyVal, d.lookup "required" = Option.some v →
        v ≠ PyVal.none →
        (normEntry d).lookup "required" = Option.some v
        ∧ get_steps (PyVal.list [PyVal.dict d]) = Except.ok [normEntry d]) := by
  refine ⟨?_, ?_, ?_⟩
  · intro hno hn hu
    have h3 : hasTruthyKey d "number" = false := by
      unfold hasTruthyKey
      rw [hno]
      rfl
    rw [get_steps_cons]
    simp only [get_steps_loop, requiredStepField_of_truthy _ hn,
      requiredStepField_of_truthy _ hu, requiredStepField_of_not_truthy _ h3]
    simp [Bind.bind, Except.bind]
  · intro hname
    have h1 : hasTruthyKey d "name" = false := by
      unfold hasTruthyKey
      rw [hname]
      rfl
    rw [get_steps_cons]
    simp only [get_steps_loop, requiredStepField_of_not_truthy _ h1]
    simp [Bind.bind, Except.bind]
  · intro hv v hr hvne
    constructor
    · rw [normEntry_lookup_opt d (by decide)]
      refine collectOptionalProps_lookup_mem ?_ hvne _ (by decide)
      unfold get_value_by_key
      rw [hr]
    · rw [get_steps_cons]
      have h2 := get_steps_loop_of_all_valid [d]
        (by intro x hx; rw [List.mem_singleton.mp hx]; exact hv)
      simpa using h2

/-- Raw step with sequence number `0`: present but falsy. -/
def zeroNumberStep : Dict :=
  [("name", PyVal.str "s1"), ("url", PyVal.str "u"), ("number", PyVal.int 0)]

/-- Raw step with `required: 0`: optional property present with a falsy
non-`None` value. -/
def falsyOptionalStep : Dict :=
  [("name", PyVal.str "s1"), ("url", PyVal.str "u"), ("number", PyVal.int 1),
   ("required", PyVal.int 0)]

/-- Witness for C10: number `0` is rejected like a missing number, while
`required: 0` is copied through. -/
theorem C10_asymmetric_presence_tests_witness :
    get_steps (PyVal.list [PyVal.dict zeroNumberStep]) =
      Except.error (Outcome.failed msgStepNo)
    ∧ (normEntry falsyOptionalStep).lookup "required" = Option.some (PyVal.int 0) :=
  ⟨(C10_asymmetric_presence_tests zeroNumberStep []).1 (by decide) (by decide) (by decide),
   ((C10_asymmetric_presence_tests falsyOptionalStep []).2.2 (by decide) (PyVal.int 0)
      (by decide) (by decide)).1⟩

/-! ## Shapes of `get_web_check_params` on the update path -/

/-- The parameter dict `get_web_check_params` assembles on the update path
(`httptestid` truthy): the four fixed bindings, then `httptestid`, then the
optional scenario properties merged over them. -/
def updateParamsBase (wn hid aid : PyVal) (steps : List Dict) (tid : PyVal) (opts : Dict) : Dict :=
  dictMerge (dictSet
    [("name", wn), ("applicationid", aid), ("hostid", hid),
     ("steps", PyVal.list (steps.map PyVal.dict))] "httptestid" tid) opts

theorem get_web_check_params_update_falsy (wn hid aid raw : PyVal) (opts : Dict)
    {od : Dict} {tid s : PyVal} {ns : List Dict} (htid : pyTruthy tid = true)
    (hs : od.lookup "steps" = Option.some s) (hfalsy : pyTruthy s = false)
    (hraw : get_steps raw = Except.ok ns) :
    get_web_check_params wn hid aid raw opts (PyVal.dict od) tid =
      Except.ok (updateParamsBase wn hid aid ns tid opts) := by
  unfold get_web_check_params
  rw [hraw]
  simp only [Bind.bind, Except.bind, if_pos htid, pySubscript, hs, hfalsy]
  simp [updateParamsBase, htid]

theorem get_web_check_params_update_list (wn hid aid raw : PyVal) (opts : Dict)
    {od : Dict} {tid : PyVal} {olds : List PyVal} {ns : List Dict}
    (htid : pyTruthy tid = true)
    (hs : od.lookup "steps" = Option.some (PyVal.list olds)) (hne : olds ≠ [])
    (hraw : get_steps raw = Except.ok ns) :
    get_web_check_params wn hid aid raw opts (PyVal.dict od) tid =
      match get_replace_steps olds ns tid with
      | Except.error o => Except.error o
      | Except.ok steps => Except.ok (updateParamsBase wn hid aid steps tid opts) := by
  unfold get_web_check_params
  rw [hraw]
  have htr : pyTruthy (PyVal.list olds) = true := by
    cases olds with
    | nil => exact absurd rfl hne
    | cons x xs => rfl
  simp only [Bind.bind, Except.bind, if_pos htid, pySubscript, hs, htr]
  cases hb : get_replace_steps olds ns tid with
  | error o => simp [hb]
  | ok steps => simp [hb, updateParamsBase, htid]

theorem get_web_check_params_update_dict (wn hid aid raw : PyVal) (opts : Dict)
    {od : Dict} {tid : PyVal} {kvs : List (String × PyVal)} {ns : List Dict}
    (htid : pyTruthy tid = true)
    (hs : od.lookup "steps" = Option.some (PyVal.dict kvs)) (hne : kvs ≠ [])
    (hraw : get_steps raw = Except.ok ns) :
    get_web_check_params wn hid aid raw opts (PyVal.dict od) tid =
      match get_replace_steps (kvs.map Prod.snd) ns tid with
      | Except.error o => Except.error o
      | Except.ok steps => Except.ok (updateParamsBase wn hid aid steps tid opts) := by
  unfold get_web_check_params
  rw [hraw]
  have htr : pyTruthy (PyVal.dict kvs) = true := by
    cases kvs with
    | nil => exact absurd rfl hne
    | cons x xs => rfl
  simp only [Bind.bind, Except.bind, if_pos htid, pySubscript, hs, htr]
  cases hb : get_replace_steps (kvs.map Prod.snd) ns tid with
  | error o => simp [hb]
  | ok steps => simp [hb, updateParamsBase, htid]

theorem updateParamsBase_lookup_steps (wn hid aid : PyVal) (steps : List Dict)
    (tid : PyVal) {opts : Dict} (hopts : opts.lookup "steps" = Option.none) :
    (updateParamsBase wn hid aid steps tid opts).lookup "steps" =
      Option.some (PyVal.list (steps.map PyVal.dict)) := by
  unfold updateParamsBase
  rw [lookup_dictMerge_right_none _ hopts, lookup_dictSet_ne _ _ (by decide),
    lookup_cons_eq_if, if_neg (by decide), lookup_cons_eq_if, if_neg (by decide),
    lookup_cons_eq_if, if_neg (by decide), lookup_cons_eq_if, if_pos rfl]

theorem get_steps_ok_shape {raw : PyVal} {ns : List Dict} (h : get_steps raw = Except.ok ns) :
    ∀ n ∈ ns, ∃ d, entryValid d = true ∧ n = normEntry d := by
  unfold get_steps at h
  by_cases ht : pyTruthy raw = true
  · rw [if_pos ht] at h
    cases raw with
    | list entries => exact get_steps_loop_shape entries ns h
    | none => exact absurd h (by simp)
    | str s => exact absurd h (by simp)
    | int i => exact absurd h (by simp)
    | dict es => exact absurd h (by simp)
  · rw [if_neg ht] at h
    exact absurd h (by simp)

theorem get_steps_ok_url {raw : PyVal} {ns : List Dict} (h : get_steps raw = Except.ok ns) :
    ∀ n ∈ ns, (n.lookup "url").isSome = true := by
  intro n hn
  obtain ⟨d, _, hd⟩ := get_steps_ok_shape h n hn
  rw [hd, normEntry_lookup_url]
  rfl

theorem get_steps_ok_fresh {raw : PyVal} {ns : List Dict} (h : get_steps raw = Except.ok ns) :
    ∀ n ∈ ns, n.lookup "webstepid" = Option.none ∧ n.lookup "httptestid" = Option.none := by
  intro n hn
  obtain ⟨d, _, hd⟩ := get_steps_ok_shape h n hn
  rw [hd]
  exact ⟨normEntry_lookup_fresh d (by decide) (by decide) (by decide) (by decide),
    normEntry_lookup_fresh d (by decide) (by decide) (by decide) (by decide)⟩

/-! ## Claim C6 -/

/-- C6 (amended): when the existing web check's `steps` field is falsy
(null/empty), `get_web_check_params` skips reconciliation entirely: the
outgoing steps are exactly the normalized desired steps, carrying neither a
remote step identifier nor the parent web-check identifier; the parent
identifier appears only on the outer parameter set. -/
theorem C6_empty_existing_steps (wn hid aid raw : PyVal) (opts od : Dict)
    (tid s : PyVal) (ns : List Dict)
    (hs : od.lookup "steps" = Option.some s) (hfalsy : pyTruthy s = false)
    (htid : pyTruthy tid = true) (hraw : get_steps raw = Except.ok ns)
    (hopts : opts.lookup "steps" = Option.none) :
    get_web_check_params wn hid aid raw opts (PyVal.dict od) tid =
      Except.ok (updateParamsBase wn hid aid ns tid opts)
    ∧ (updateParamsBase wn hid aid ns tid opts).lookup "steps" =
        Option.some (PyVal.list (ns.map PyVal.dict))
    ∧ ∀ n ∈ ns, n.lookup "webstepid" = Option.none ∧ n.lookup "httptestid" = Option.none :=
  ⟨get_web_check_params_update_falsy wn hid aid raw opts htid hs hfalsy hraw,
   updateParamsBase_lookup_steps wn hid aid ns tid hopts,
   get_steps_ok_fresh hraw⟩

/-- An existing web check whose `steps` field is the empty list. -/
def emptyStepsObj : Dict := [("httptestid", PyVal.int 5), ("steps", PyVal.list [])]

/-- A desired single-step scenario with url `http://c`. -/
def rawDesiredC : PyVal :=
  PyVal.list [PyVal.dict
    [("name", PyVal.str "s"), ("url", PyVal.str "http://c"), ("number", PyVal.int 1)]]

/-- Counterexample to C6 as stated: with an existing web check whose step list
is empty, the single outgoing step carries NO parent web-check identifier (the
claim says each step carries it); `httptestid` appears only on the outer
parameter set. -/
theorem C6_counterexample :
    get_web_check_params (PyVal.str "w") (PyVal.int 1) (PyVal.int 2) rawDesiredC []
        (PyVal.dict emptyStepsObj) (PyVal.int 5) =
      Except.ok
        [("name", PyVal.str "w"), ("applicationid", PyVal.int 2), ("hostid", PyVal.int 1),
         ("steps", PyVal.list [PyVal.dict
            [("name", PyVal.str "s"), ("url", PyVal.str "http://c"), ("no", PyVal.int 1)]]),
         ("httptestid", PyVal.int 5)]
    ∧ ([("name", PyVal.str "s"), ("url", PyVal.str "http://c"), ("no", PyVal.int 1)] :
        Dict).lookup "httptestid" = Option.none :=
  ⟨by decide, by decide⟩

/-- Witness for the amended C6 at the counterexample's input. -/
theorem C6_empty_existing_steps_witness :
    get_web_check_params (PyVal.str "w") (PyVal.int 1) (PyVal.int 2) rawDesiredC []
        (PyVal.dict emptyStepsObj) (PyVal.int 5) =
      Except.ok (updateParamsBase (PyVal.str "w") (PyVal.int 1) (PyVal.int 2)
        [[("name", PyVal.str "s"), ("url", PyVal.str "http://c"), ("no", PyVal.int 1)]]
        (PyVal.int 5) []) :=
  (C6_empty_existing_steps (PyVal.str "w") (PyVal.int 1) (PyVal.int 2) rawDesiredC []
    emptyStepsObj (PyVal.int 5) (PyVal.list []) _ rfl rfl rfl rfl rfl).1

/-! ## Claim C7 -/

theorem find?_perm_of_unique {α : Type} {l l' : List α} (h : l.Perm l') (p : α → Bool)
    (huniq : ∀ x ∈ l, ∀ y ∈ l, p x = true → p y = true → x = y) :
    l.find? p = l'.find? p := by
  cases hf : l.find? p with
  | none =>
      have hnone := List.find?_eq_none.mp hf
      symm
      rw [List.find?_eq_none]
      intro x hx
      exact hnone x (h.mem_iff.mpr hx)
  | some a =>
      have ha := List.find?_some hf
      have hmem := List.mem_of_find?_eq_some hf
      cases hf' : l'.find? p with
      | none =>
          have hnone := List.find?_eq_none.mp hf'
          exact absurd ha (hnone a (h.mem_iff.mp hmem))
      | some b =>
          have hb := List.find?_some hf'
          have hbm := List.mem_of_find?_eq_some hf'
          rw [huniq b (h.mem_iff.mpr hbm) a hmem hb ha]

theorem specFirstUrlMatch_perm {olds olds' : List PyVal} (hperm : olds'.Perm olds)
    (hnd : (olds.map specStepUrl).Nodup) (u : PyVal) :
    specFirstUrlMatch olds' u = specFirstUrlMatch olds u := by
  unfold specFirstUrlMatch
  apply find?_perm_of_unique hperm
  intro x hx y hy hpx hpy
  have hx' : x ∈ olds := hperm.mem_iff.mp hx
  have hy' : y ∈ olds := hperm.mem_iff.mp hy
  have hux : specStepUrl x = u := by rwa [beq_iff_eq] at hpx
  have huy : specStepUrl y = u := by rwa [beq_iff_eq] at hpy
  exact List.inj_on_of_nodup_map hnd hx' hy' (hux.trans huy.symm)

theorem specReconcileSteps_perm {olds olds' : List PyVal} (hperm : olds'.Perm olds)
    (hnd : (olds.map specStepUrl).Nodup) (ns : List Dict) (tid : PyVal) :
    specReconcileSteps olds' ns tid = specReconcileSteps olds ns tid := by
  unfold specReconcileSteps
  apply List.map_congr_left
  intro n _
  rw [specFirstUrlMatch_perm hperm hnd]

/-- C7 (amended): `get_web_check_params` normalizes both representations of
the existing steps — an ordered sequence, or a keyed mapping taken in its
binding order — into an ordered sequence before comparison, and whenever the
existing steps' urls are pairwise distinct the url-matching result is the same
for either representation of the same steps (any dict ordering included). -/
theorem C7_steps_shape_independent (wn hid aid raw : PyVal) (opts : Dict)
    (odL odD : Dict) (tid : PyVal) (olds : List PyVal) (kvs : List (String × PyVal))
    (hL : odL.lookup "steps" = Option.some (PyVal.list olds))
    (hD : odD.lookup "steps" = Option.some (PyVal.dict kvs))
    (hperm : (kvs.map Prod.snd).Perm olds)
    (hwf : ∀ o ∈ olds, isWfOldStep o = true)
    (hnd : (olds.map specStepUrl).Nodup)
    (htid : pyTruthy tid = true) (hne : olds ≠ []) :
    get_web_check_params wn hid aid raw opts (PyVal.dict odD) tid =
      get_web_check_params wn hid aid raw opts (PyVal.dict odL) tid := by
  cases hraw : get_steps raw with
  | error e =>
      unfold get_web_check_params
      rw [hraw]
      simp [Bind.bind, Except.bind]
  | ok ns =>
      have hkne : kvs ≠ [] := by
        intro hk
        rw [hk] at hperm
        exact hne (hperm.nil_eq).symm
      rw [get_web_check_params_update_dict wn hid aid raw opts htid hD hkne hraw,
        get_web_check_params_update_list wn hid aid raw opts htid hL hne hraw]
      have hwf' : ∀ o ∈ kvs.map Prod.snd, isWfOldStep o = true :=
        fun o ho => hwf o (hperm.mem_iff.mp ho)
      have hurl : ∀ n ∈ ns, (n.lookup "url").isSome = true := get_steps_ok_url hraw
      rw [get_replace_steps_eq_spec hwf' tid ns hurl,
        get_replace_steps_eq_spec hwf tid ns hurl,
        specReconcileSteps_perm hperm hnd ns tid]

/-- An existing step with url `http://a` and remote id 1. -/
def dupOld1 : PyVal := PyVal.dict [("url", PyVal.str "http://a"), ("webstepid", PyVal.int 1)]

/-- A second existing step with the same url `http://a` and remote id 2. -/
def dupOld2 : PyVal := PyVal.dict [("url", PyVal.str "http://a"), ("webstepid", PyVal.int 2)]

/-- A desired single-step scenario with url `http://a`. -/
def dupDesired : PyVal :=
  PyVal.list [PyVal.dict
    [("name", PyVal.str "s"), ("url", PyVal.str "http://a"), ("number", PyVal.int 1)]]

/-- Existing web check holding the duplicate-url steps as a list. -/
def dupObjList : Dict := [("httptestid", PyVal.int 5), ("steps", PyVal.list [dupOld1, dupOld2])]

/-- Existing web check holding the same two steps as a keyed mapping whose
value order is reversed. -/
def dupObjDict : Dict :=
  [("httptestid", PyVal.int 5), ("steps", PyVal.dict [("1", dupOld2), ("2", dupOld1)])]

/-- Counterexample to C7 as stated: the dict-shaped existing steps hold exactly
the same steps as the list-shaped ones (a permutation), yet the reconciled
parameter sets differ (the desired step picks remote id 2 instead of 1), so the
url-matching result is not representation-independent when existing urls
repeat. -/
theorem C7_counterexample :
    (([("1", dupOld2), ("2", dupOld1)] : List (String × PyVal)).map Prod.snd).Perm
        [dupOld1, dupOld2]
    ∧ get_web_check_params (PyVal.str "w") (PyVal.int 1) (PyVal.int 2) dupDesired []
        (PyVal.dict dupObjDict) (PyVal.int 5) ≠
      get_web_check_params (PyVal.str "w") (PyVal.int 1) (PyVal.int 2) dupDesired []
        (PyVal.dict dupObjList) (PyVal.int 5) :=
  ⟨by decide, by decide⟩

/-- Witness for the amended C7: with distinct existing urls (`http://a`,
`http://b`) the two representations reconcile identically. -/
theorem C7_steps_shape_independent_witness :
    get_web_check_params (PyVal.str "w") (PyVal.int 1) (PyVal.int 2) rawDesiredC []
        (PyVal.dict [("httptestid", PyVal.int 5),
          ("steps", PyVal.dict [("1", oldStepB), ("2", oldStepA)])]) (PyVal.int 5) =
      get_web_check_params (PyVal.str "w") (PyVal.int 1) (PyVal.int 2) rawDesiredC []
        (PyVal.dict [("httptestid", PyVal.int 5),
          ("steps", PyVal.list [oldStepA, oldStepB])]) (PyVal.int 5) :=
  C7_steps_shape_independent (PyVal.str "w") (PyVal.int 1) (PyVal.int 2) rawDesiredC []
    [("httptestid", PyVal.int 5), ("steps", PyVal.list [oldStepA, oldStepB])]
    [("httptestid", PyVal.int 5), ("steps", PyVal.dict [("1", oldStepB), ("2", oldStepA)])]
    (PyVal.int 5) [oldStepA, oldStepB] [("1", oldStepB), ("2", oldStepA)]
    rfl rfl (by decide) (by decide) (by decide) rfl (by decide)

/-! ## Claim C2: running the reconciler twice -/

/-- The `changed` flag of a terminal `exit_json`, when the run exited. -/
def outcomeChanged : Outcome → Option Bool
  | Outcome.exited c _ => Option.some c
  | _ => Option.none

/-- The parameter dict of the first `webcheck.update` call in a trace. -/
def issuedUpdateParams : List RemoteCall → Option Dict
  | [] => Option.none
  | RemoteCall.webcheckUpdate ps :: _ => Option.some ps
  | _ :: rest => issuedUpdateParams rest

/-- Modelled from the spec: how the remote monitoring server — an external
collaborator, not part of src/ — stores the replacement steps of a web-check
update (spec §3, §4.3): the scenario's step list is replaced by the submitted
list; a submitted step carrying a remote step identifier keeps it, one without
is created under a fresh identifier (supplied here by submitted position), and
each stored step carries its url and its remote step identifier. -/
def applyStep (freshIds : Nat → PyVal) (i : Nat) : PyVal → PyVal
  | PyVal.dict d =>
      PyVal.dict [("url", get_value_by_key d "url"),
        ("webstepid",
          match d.lookup "webstepid" with
          | Option.some w => w
          | Option.none => freshIds i)]
  | _ => PyVal.dict [("url", PyVal.none), ("webstepid", freshIds i)]

/-- Modelled from the spec: the stored replacement list, step by step (the
`Nat` argument is the submitted position, for fresh identifiers). -/
def applySteps (freshIds : Nat → PyVal) : Nat → List PyVal → List PyVal
  | _, [] => []
  | i, s :: rest => applyStep freshIds i s :: applySteps freshIds (i + 1) rest

/-- Modelled from the spec: the stored step list resulting from a
`webcheck.update` call with the given parameters (spec §4.3: full replace of
the scenario's steps). -/
def applyWebcheckUpdate (freshIds : Nat → PyVal) (params : Dict) : List PyVal :=
  match params.lookup "steps" with
  | Option.some (PyVal.list steps) => applySteps freshIds 0 steps
  | _ => []

/-- Modelled from the spec: the remote web-check object after a run of the
module with the given trace — unchanged unless the run issued an update, whose
applied replacement steps otherwise become the object's steps field. -/
def objAfterRun (freshIds : Nat → PyVal) (od : Dict) (t : List RemoteCall) : Dict :=
  match issuedUpdateParams t with
  | Option.some ps => dictSet od "steps" (PyVal.list (applyWebcheckUpdate freshIds ps))
  | Option.none => od

/-- A stored remote step in the server's canonical shape. -/
def isCanonStep : PyVal → Bool
  | PyVal.dict [(k1, _), (k2, _)] => k1 == "url" && k2 == "webstepid"
  | _ => false

theorem applySteps_canon (freshIds : Nat → PyVal) :
    ∀ (xs : List PyVal) (i : Nat), ∀ o ∈ applySteps freshIds i xs, isCanonStep o = true := by
  intro xs
  induction xs with
  | nil => intro i o ho; simp [applySteps] at ho
  | cons s rest ih =>
      intro i o ho
      rw [applySteps] at ho
      rcases List.mem_cons.mp ho with hh | ht
      · subst hh
        cases s <;> simp [applyStep, isCanonStep]
      · exact ih (i + 1) o ht

theorem isCanonStep_wf {o : PyVal} (h : isCanonStep o = true) : isWfOldStep o = true := by
  cases o with
  | dict d =>
      match d with
      | [] => simp [isCanonStep] at h
      | [(k1, v1)] => simp [isCanonStep] at h
      | [(k1, v1), (k2, v2)] =>
          simp only [isCanonStep, Bool.and_eq_true, beq_iff_eq] at h
          obtain ⟨h1, h2⟩ := h
          subst h1; subst h2
          rfl
      | (k1, v1) :: (k2, v2) :: x :: rest => simp [isCanonStep] at h
  | none => simp [isCanonStep] at h
  | str s => simp [isCanonStep] at h
  | int n => simp [isCanonStep] at h
  | list xs => simp [isCanonStep] at h

theorem applySteps_urls (freshIds : Nat → PyVal) :
    ∀ (fs : List Dict) (i : Nat),
      (applySteps freshIds i (fs.map PyVal.dict)).map specStepUrl =
        fs.map (fun f => get_value_by_key f "url") := by
  intro fs
  induction fs with
  | nil => intro i; rfl
  | cons f rest ih =>
      intro i
      rw [List.map_cons, applySteps, List.map_cons, List.map_cons, ih (i + 1)]
      rfl

theorem applySteps_length (freshIds : Nat → PyVal) :
    ∀ (xs : List PyVal) (i : Nat), (applySteps freshIds i xs).length = xs.length := by
  intro xs
  induction xs with
  | nil => intro i; rfl
  | cons s rest ih =>
      intro i
      rw [applySteps, List.length_cons, List.length_cons, ih (i + 1)]

theorem get_steps_ok_ne_nil {raw : PyVal} {ns : List Dict}
    (h : get_steps raw = Except.ok ns) : ns ≠ [] := by
  unfold get_steps at h
  by_cases ht : pyTruthy raw = true
  · rw [if_pos ht] at h
    cases raw with
    | list entries =>
        have hlen := get_steps_loop_length entries ns h
        have hene : entries ≠ [] := by
          intro hnil
          rw [hnil] at ht
          simp [pyTruthy] at ht
        intro hns
        rw [hns] at hlen
        exact hene (List.eq_nil_of_length_eq_zero hlen.symm)
    | none => exact absurd h (by simp)
    | str s => exact absurd h (by simp)
    | int i => exact absurd h (by simp)
    | dict es => exact absurd h (by simp)
  · rw [if_neg ht] at h
    exact absurd h (by simp)

theorem update_web_check_run {od : Dict} {tid : PyVal} {ps : Dict}
    (wn hid aid raw : PyVal) (opts : Dict)
    (htid : od.lookup "httptestid" = Option.some tid)
    (hgwp : get_web_check_params wn hid aid raw opts (PyVal.dict od) tid = Except.ok ps) :
    update_web_check false (PyVal.dict od) wn hid aid raw opts =
      (Outcome.exited true
         (Option.some ("Successfully updated WebCheck " ++ pyStr (PyVal.dict ps) ++ " ")),
       [RemoteCall.webcheckUpdate ps]) := by
  unfold update_web_check
  simp only [pySubscript, htid, hgwp]
  simp

theorem objAfterRun_update (freshIds : Nat → PyVal) (od : Dict) (ps : Dict) :
    objAfterRun freshIds od [RemoteCall.webcheckUpdate ps] =
      dictSet od "steps" (PyVal.list (applyWebcheckUpdate freshIds ps)) := rfl

theorem gvk_dictSet_ne (d : Dict) {k' k : String} (v : PyVal) (hne : k' ≠ k) :
    get_value_by_key (dictSet d k v) k' = get_value_by_key d k' := by
  unfold get_value_by_key
  rw [lookup_dictSet_ne _ _ hne]

theorem specReconcileSteps_urls (olds : List PyVal) (ns : List Dict) (tid : PyVal) :
    (specReconcileSteps olds ns tid).map (fun f => get_value_by_key f "url") =
      ns.map (fun n => get_value_by_key n "url") := by
  unfold specReconcileSteps
  rw [List.map_map]
  apply List.map_congr_left
  intro n _
  simp only [Function.comp]
  cases specFirstUrlMatch olds (get_value_by_key n "url") with
  | some o =>
      rw [gvk_dictSet_ne _ _ (by decide), gvk_dictSet_ne _ _ (by decide)]
  | none =>
      rw [gvk_dictSet_ne _ _ (by decide)]

theorem specReconcileSteps_cons_of_not_mem {c : PyVal} {cs' : List PyVal}
    {ns' : List Dict} (tid : PyVal)
    (h : ∀ n ∈ ns', specStepUrl c ≠ get_value_by_key n "url") :
    specReconcileSteps (c :: cs') ns' tid = specReconcileSteps cs' ns' tid := by
  unfold specReconcileSteps
  apply List.map_congr_left
  intro n hn
  rw [specFirstUrlMatch, List.find?_cons_of_neg _ (by rw [beq_iff_eq]; exact h n hn)]
  rfl

theorem isCanonStep_elim {o : PyVal} (h : isCanonStep o = true) :
    ∃ u w, o = PyVal.dict [("url", u), ("webstepid", w)] := by
  cases o with
  | dict d =>
      match d with
      | [] => simp [isCanonStep] at h
      | [(k1, v1)] => simp [isCanonStep] at h
      | [(k1, v1), (k2, v2)] =>
          simp only [isCanonStep, Bool.and_eq_true, beq_iff_eq] at h
          obtain ⟨h1, h2⟩ := h
          subst h1; subst h2
          exact ⟨v1, v2, rfl⟩
      | (k1, v1) :: (k2, v2) :: x :: rest => simp [isCanonStep] at h
  | none => simp [isCanonStep] at h
  | str s => simp [isCanonStep] at h
  | int n => simp [isCanonStep] at h
  | list xs => simp [isCanonStep] at h

theorem applySteps_reconcile_canon (fresh2 : Nat → PyVal) (tid : PyVal) :
    ∀ (ns : List Dict) (cs : List PyVal) (i : Nat),
      (∀ o ∈ cs, isCanonStep o = true) →
      cs.map specStepUrl = ns.map (fun n => get_value_by_key n "url") →
      (ns.map (fun n => get_value_by_key n "url")).Nodup →
      applySteps fresh2 i ((specReconcileSteps cs ns tid).map PyVal.dict) = cs := by
  intro ns
  induction ns with
  | nil =>
      intro cs i hc hu hnd
      have hlen : cs.length = 0 := by
        have := congrArg List.length hu
        simpa using this
      rw [List.eq_nil_of_length_eq_zero hlen]
      rfl
  | cons n ns' ih =>
      intro cs i hc hu hnd
      cases cs with
      | nil =>
          exact absurd (congrArg List.length hu) (by simp)
      | cons c cs' =>
          simp only [List.map_cons] at hu
          have hu1 : specStepUrl c = get_value_by_key n "url" := (List.cons.injEq _ _ _ _ ▸ hu).1
          have hu2 : cs'.map specStepUrl = ns'.map (fun n => get_value_by_key n "url") :=
            (List.cons.injEq _ _ _ _ ▸ hu).2
          simp only [List.map_cons, List.nodup_cons] at hnd
          obtain ⟨u, w, hcw⟩ := isCanonStep_elim (hc c (List.mem_cons_self _ _))
          have hmatch : specFirstUrlMatch (c :: cs') (get_value_by_key n "url") =
              Option.some c := by
            unfold specFirstUrlMatch
            rw [List.find?_cons_of_pos _ (by rw [beq_iff_eq, hu1])]
          have htail : specReconcileSteps (c :: cs') ns' tid =
              specReconcileSteps cs' ns' tid := by
            apply specReconcileSteps_cons_of_not_mem
            intro n' hn'
            rw [hu1]
            intro he
            exact hnd.1 (he ▸ List.mem_map_of_mem (fun n => get_value_by_key n "url") hn')
          have hhead : specReconcileSteps (c :: cs') (n :: ns') tid =
              dictSet (dictSet n "webstepid" (specStepId c)) "httptestid" tid ::
                specReconcileSteps (c :: cs') ns' tid := by
            unfold specReconcileSteps
            rw [List.map_cons, hmatch]
          rw [hhead, htail, List.map_cons, applySteps]
          have hid : specStepId c = w := by
            rw [hcw]
            rfl
          have hlookup : (dictSet (dictSet n "webstepid" (specStepId c)) "httptestid"
              tid).lookup "webstepid" = Option.some w := by
            rw [lookup_dictSet_ne _ _ (by decide), lookup_dictSet_self, hid]
          have hurl2 : get_value_by_key
              (dictSet (dictSet n "webstepid" (specStepId c)) "httptestid" tid) "url" = u := by
            rw [gvk_dictSet_ne _ _ (by decide), gvk_dictSet_ne _ _ (by decide), ← hu1, hcw]
            rfl
          rw [applyStep, hurl2, hlookup]
          rw [ih cs' (i + 1) (fun o ho => hc o (List.mem_cons_of_mem _ ho)) hu2 hnd.2, hcw]

theorem run1_params (wn hid aid raw : PyVal) (opts od : Dict) (tid : PyVal)
    {olds : List PyVal} {ns : List Dict}
    (hraw : get_steps raw = Except.ok ns)
    (hsteps : od.lookup "steps" = Option.some (PyVal.list olds))
    (hwf : ∀ o ∈ olds, isWfOldStep o = true)
    (htt : pyTruthy tid = true) :
    ∃ f1 : List Dict,
      get_web_check_params wn hid aid raw opts (PyVal.dict od) tid =
        Except.ok (updateParamsBase wn hid aid f1 tid opts)
      ∧ f1.map (fun f => get_value_by_key f "url") =
          ns.map (fun n => get_value_by_key n "url") := by
  cases holds : olds with
  | nil =>
      refine ⟨ns, ?_, rfl⟩
      rw [holds] at hsteps
      exact get_web_check_params_update_falsy wn hid aid raw opts htt hsteps rfl hraw
  | cons o olds' =>
      refine ⟨specReconcileSteps olds ns tid, ?_, specReconcileSteps_urls olds ns tid⟩
      rw [holds] at hsteps
      rw [get_web_check_params_update_list wn hid aid raw opts htt hsteps
        (List.cons_ne_nil _ _) hraw, ← holds,
        get_replace_steps_eq_spec hwf tid ns (get_steps_ok_url hraw)]

theorem applyWebcheckUpdate_base (freshIds : Nat → PyVal) (wn hid aid : PyVal)
    (f1 : List Dict) (tid : PyVal) {opts : Dict}
    (hopts : opts.lookup "steps" = Option.none) :
    applyWebcheckUpdate freshIds (updateParamsBase wn hid aid f1 tid opts) =
      applySteps freshIds 0 (f1.map PyVal.dict) := by
  unfold applyWebcheckUpdate
  rw [updateParamsBase_lookup_steps wn hid aid f1 tid hopts]

/-- C2 (amended): running the reconciler's update twice with the same desired
spec against the same initial remote state — with the server's application of
each update modelled from the spec — reports changed on the FIRST run and
changed again (not a no-op) on the SECOND run, and the remote step list is
identical after both runs (hypotheses: the desired steps normalize and have
pairwise-distinct urls, the existing object carries a truthy `httptestid` and
a list of well-formed steps, and the optional scenario properties do not
override `steps`). -/
theorem C2_second_run_changed_state_stable (wn hid aid raw : PyVal) (opts od : Dict)
    (tid : PyVal) (olds : List PyVal) (ns : List Dict) (fresh fresh2 : Nat → PyVal)
    (hraw : get_steps raw = Except.ok ns)
    (hnd : (ns.map (fun n => get_value_by_key n "url")).Nodup)
    (hsteps : od.lookup "steps" = Option.some (PyVal.list olds))
    (hwf : ∀ o ∈ olds, isWfOldStep o = true)
    (htid : od.lookup "httptestid" = Option.some tid)
    (htt : pyTruthy tid = true)
    (hopts : opts.lookup "steps" = Option.none) :
    outcomeChanged (update_web_check false (PyVal.dict od) wn hid aid raw opts).1 =
      Option.some true
    ∧ outcomeChanged (update_web_check false
        (PyVal.dict (objAfterRun fresh od
          (update_web_check false (PyVal.dict od) wn hid aid raw opts).2))
        wn hid aid raw opts).1 = Option.some true
    ∧ (objAfterRun fresh2
        (objAfterRun fresh od (update_web_check false (PyVal.dict od) wn hid aid raw opts).2)
        (update_web_check false
          (PyVal.dict (objAfterRun fresh od
            (update_web_check false (PyVal.dict od) wn hid aid raw opts).2))
          wn hid aid raw opts).2).lookup "steps" =
      (objAfterRun fresh od
        (update_web_check false (PyVal.dict od) wn hid aid raw opts).2).lookup "steps" := by
  obtain ⟨f1, hgwp1, hf1u⟩ := run1_params wn hid aid raw opts od tid hraw hsteps hwf htt
  have hr1 := update_web_check_run wn hid aid raw opts htid hgwp1
  rw [hr1]
  have hod1 : objAfterRun fresh od
      [RemoteCall.webcheckUpdate (updateParamsBase wn hid aid f1 tid opts)] =
      dictSet od "steps" (PyVal.list (applySteps fresh 0 (f1.map PyVal.dict))) := by
    rw [objAfterRun_update, applyWebcheckUpdate_base fresh wn hid aid f1 tid hopts]
  have hcanon1 : ∀ o ∈ applySteps fresh 0 (f1.map PyVal.dict), isCanonStep o = true :=
    applySteps_canon fresh (f1.map PyVal.dict) 0
  have hwf1 : ∀ o ∈ applySteps fresh 0 (f1.map PyVal.dict), isWfOldStep o = true :=
    fun o ho => isCanonStep_wf (hcanon1 o ho)
  have hurls1 : (applySteps fresh 0 (f1.map PyVal.dict)).map specStepUrl =
      ns.map (fun n => get_value_by_key n "url") := by
    rw [applySteps_urls fresh f1 0, hf1u]
  have hne1 : applySteps fresh 0 (f1.map PyVal.dict) ≠ [] := by
    intro hempty
    have hlen := applySteps_length fresh (f1.map PyVal.dict) 0
    rw [hempty] at hlen
    have hlen2 : f1.length = ns.length := by
      have := congrArg List.length hf1u
      simpa using this
    have hnsne := get_steps_ok_ne_nil hraw
    apply hnsne
    apply List.eq_nil_of_length_eq_zero
    rw [← hlen2]
    simpa using hlen.symm
  have htid1 : (dictSet od "steps"
      (PyVal.list (applySteps fresh 0 (f1.map PyVal.dict)))).lookup "httptestid" =
      Option.some tid := by
    rw [lookup_dictSet_ne _ _ (by decide)]
    exact htid
  have hsteps1 : (dictSet od "steps"
      (PyVal.list (applySteps fresh 0 (f1.map PyVal.dict)))).lookup "steps" =
      Option.some (PyVal.list (applySteps fresh 0 (f1.map PyVal.dict))) :=
    lookup_dictSet_self _ _ _
  have hgwp2 : get_web_check_params wn hid aid raw opts
      (PyVal.dict (dictSet od "steps"
        (PyVal.list (applySteps fresh 0 (f1.map PyVal.dict))))) tid =
      Except.ok (updateParamsBase wn hid aid
        (specReconcileSteps (applySteps fresh 0 (f1.map PyVal.dict)) ns tid) tid opts) := by
    rw [get_web_check_params_update_list wn hid aid raw opts htt hsteps1 hne1 hraw,
      get_replace_steps_eq_spec hwf1 tid ns (get_steps_ok_url hraw)]
  have hr2 := update_web_check_run wn hid aid raw opts htid1 hgwp2
  rw [hod1, hr2]
  refine ⟨rfl, rfl, ?_⟩
  rw [objAfterRun_update, applyWebcheckUpdate_base fresh2 wn hid aid _ tid hopts,
    applySteps_reconcile_canon fresh2 tid ns _ 0 hcanon1 hurls1 hnd,
    lookup_dictSet_self, hsteps1]

/-- An existing web check with one step (url `http://a`, remote id 101). -/
def c2Obj : Dict :=
  [("httptestid", PyVal.int 5),
   ("steps", PyVal.list [PyVal.dict [("url", PyVal.str "http://a"), ("webstepid", PyVal.int 101)]])]

/-- The matching desired scenario: one step with the same url. -/
def c2Raw : PyVal :=
  PyVal.list [PyVal.dict
    [("name", PyVal.str "s1"), ("url", PyVal.str "http://a"), ("number", PyVal.int 1)]]

/-- A fresh remote-identifier supply for the modelled server. -/
def c2Fresh : Nat → PyVal := fun n => PyVal.int (200 + Int.ofNat n)

/-- Counterexample to C2 as stated: with identical desired spec and remote
state, the SECOND run also exits with changed=true — the module updates
unconditionally and never reports a no-op on the present/present path — where
the claim demands changed=false. -/
theorem C2_counterexample :
    outcomeChanged (update_web_check false (PyVal.dict c2Obj) (PyVal.str "wc")
        (PyVal.int 1) (PyVal.int 2) c2Raw []).1 = Option.some true
    ∧ outcomeChanged (update_web_check false
        (PyVal.dict (objAfterRun c2Fresh c2Obj
          (update_web_check false (PyVal.dict c2Obj) (PyVal.str "wc") (PyVal.int 1)
            (PyVal.int 2) c2Raw []).2))
        (PyVal.str "wc") (PyVal.int 1) (PyVal.int 2) c2Raw []).1 = Option.some true :=
  ⟨by decide, by decide⟩

/-- Witness for the amended C2: the remote step list is identical after the
first and the second run. -/
theorem C2_second_run_changed_state_stable_witness :
    (objAfterRun c2Fresh
        (objAfterRun c2Fresh c2Obj (update_web_check false (PyVal.dict c2Obj) (PyVal.str "wc")
          (PyVal.int 1) (PyVal.int 2) c2Raw []).2)
        (update_web_check false
          (PyVal.dict (objAfterRun c2Fresh c2Obj
            (update_web_check false (PyVal.dict c2Obj) (PyVal.str "wc") (PyVal.int 1)
              (PyVal.int 2) c2Raw []).2))
          (PyVal.str "wc") (PyVal.int 1) (PyVal.int 2) c2Raw []).2).lookup "steps" =
      (objAfterRun c2Fresh c2Obj
        (update_web_check false (PyVal.dict c2Obj) (PyVal.str "wc") (PyVal.int 1)
          (PyVal.int 2) c2Raw []).2).lookup "steps" :=
  (C2_second_run_changed_state_stable (PyVal.str "wc") (PyVal.int 1) (PyVal.int 2) c2Raw []
    c2Obj (PyVal.int 5)
    [PyVal.dict [("url", PyVal.str "http://a"), ("webstepid", PyVal.int 101)]]
    [[("name", PyVal.str "s1"), ("url", PyVal.str "http://a"), ("no", PyVal.int 1)]]
    c2Fresh c2Fresh rfl (by decide) rfl (by decide) rfl (by decide) rfl).2.2

/-! ## Claims about `main`: C8 and C9 -/

/-- A call that mutates remote state (create/update/delete of any
collection). -/
def isMutatingCall : RemoteCall → Bool
  | RemoteCall.applicationCreate _ _ => true
  | RemoteCall.webcheckCreate _ => true
  | RemoteCall.webcheckUpdate _ => true
  | RemoteCall.webcheckDelete _ => true
  | _ => false

/-- C8: with `state=absent` and no matching remote web check, the run reports
changed=false with a "does not exist" message, its trace is exactly the three
read-only calls (login, host lookup, web-check lookup), and in particular no
delete, create or update call is performed. -/
theorem C8_absent_nonexistent_noop (p : ModuleParams) (env : RemoteEnv)
    (wn : PyVal) (hd : Dict) (hrest : List PyVal) (hid : PyVal)
    (hstate : p.state = "absent")
    (hname : p.web_check.lookup "web_check_name" = Option.some wn)
    (hhn : pyTruthy (get_value_by_key p.web_check "host_name") = true)
    (hhosts : env.hostList = PyVal.dict hd :: hrest)
    (hhid : hd.lookup "hostid" = Option.some hid)
    (hwc : env.webCheckList = []) :
    (mainRun p env).1 =
      Outcome.exited false (Option.some ("WebCheck " ++ pyStr wn ++ " does not exist"))
    ∧ (mainRun p env).2 =
      [RemoteCall.login, RemoteCall.hostGet (get_value_by_key p.web_check "host_name"),
       RemoteCall.webcheckGet wn hid]
    ∧ (mainRun p env).2.filter isMutatingCall = [] := by
  have hmain : mainRun p env =
      (Outcome.exited false (Option.some ("WebCheck " ++ pyStr wn ++ " does not exist")),
       [RemoteCall.login, RemoteCall.hostGet (get_value_by_key p.web_check "host_name"),
        RemoteCall.webcheckGet wn hid]) := by
    unfold mainRun get_host_id get_web_check
    rw [hname, hhosts, hwc]
    simp [pySubscript, hhid, hhn, hstate, show pyTruthy PyVal.none = false from rfl]
  rw [hmain]
  exact ⟨rfl, rfl, rfl⟩

/-- Parameters requesting `state=absent` for web check `wc` on host `h`. -/
def c8Params : ModuleParams :=
  { web_check := [("web_check_name", PyVal.str "wc"), ("host_name", PyVal.str "h")],
    state := "absent", check_mode := false }

/-- A remote environment with one host (id 1) and no web checks. -/
def c8Env : RemoteEnv :=
  { hostList := [PyVal.dict [("hostid", PyVal.int 1)]], applicationList := [],
    createAppResult := PyVal.none, webCheckList := [] }

/-- Witness for C8. -/
theorem C8_absent_nonexistent_noop_witness :
    (mainRun c8Params c8Env).1 =
      Outcome.exited false (Option.some "WebCheck wc does not exist")
    ∧ (mainRun c8Params c8Env).2.filter isMutatingCall = [] :=
  ⟨(C8_absent_nonexistent_noop c8Params c8Env (PyVal.str "wc") [("hostid", PyVal.int 1)]
      [] (PyVal.int 1) rfl rfl rfl rfl rfl rfl).1,
   (C8_absent_nonexistent_noop c8Params c8Env (PyVal.str "wc") [("hostid", PyVal.int 1)]
      [] (PyVal.int 1) rfl rfl rfl rfl rfl rfl).2.2⟩

/-- C9 (amended): a MISSING `web_check_name` key is rejected immediately with
the ValidationError-style failure message, before any remote call (the trace is
empty); when the key is present — even with an empty value — the run proceeds
past this validation (at least the login call happens). -/
theorem C9_missing_name_rejected (p : ModuleParams) (env : RemoteEnv) :
    (p.web_check.lookup "web_check_name" = Option.none →
      mainRun p env = (Outcome.failed msgWebCheckNameRequired, []))
    ∧ (∀ v, p.web_check.lookup "web_check_name" = Option.some v →
        ∃ t, (mainRun p env).2 = RemoteCall.login :: t) := by
  constructor
  · intro h
    unfold mainRun
    rw [h]
  · intro v h
    unfold mainRun
    rw [h]
    exact ⟨_, rfl⟩

/-- Parameters whose `web_check` payload carries an EMPTY (but present)
`web_check_name`. -/
def c9EmptyNameParams : ModuleParams :=
  { web_check := [("web_check_name", PyVal.str ""), ("host_name", PyVal.str "h")],
    state := "absent", check_mode := false }

/-- Parameters whose `web_check` payload lacks the `web_check_name` key. -/
def c9NoNameParams : ModuleParams :=
  { web_check := [("host_name", PyVal.str "h")], state := "absent", check_mode := false }

/-- Counterexample to C9 as stated: a present-but-empty `web_check_name` is NOT
rejected: the run performs remote calls (login, host and web-check lookups) and
exits normally with a "does not exist" report instead of failing validation. -/
theorem C9_counterexample :
    (mainRun c9EmptyNameParams c8Env).1 =
      Outcome.exited false (Option.some "WebCheck  does not exist")
    ∧ (mainRun c9EmptyNameParams c8Env).2 =
      [RemoteCall.login, RemoteCall.hostGet (PyVal.str "h"),
       RemoteCall.webcheckGet (PyVal.str "") (PyVal.int 1)] :=
  ⟨by decide, by decide⟩

/-- Witness for the amended C9: the missing key is rejected with no calls. -/
theorem C9_missing_name_rejected_witness :
    mainRun c9NoNameParams c8Env = (Outcome.failed msgWebCheckNameRequired, []) :=
  (C9_missing_name_rejected c9NoNameParams c8Env).1 rfl

/-! ## Claim C5 -/

theorem get_web_check_params_ok_applicationid {wn hid aid raw : PyVal} {w : Dict}
    {obj tid : PyVal} {ps : Dict}
    (h : get_web_check_params wn hid aid raw
        (collectOptionalProps w webScenarioOptionalProps) obj tid = Except.ok ps) :
    ps.lookup "applicationid" = Option.some aid := by
  have hA : ∀ steps : List Dict,
      (dictMerge (dictSet [("name", wn), ("applicationid", aid), ("hostid", hid),
        ("steps", PyVal.list (steps.map PyVal.dict))] "httptestid" tid)
        (collectOptionalProps w webScenarioOptionalProps)).lookup "applicationid" =
      Option.some aid := by
    intro steps
    rw [lookup_dictMerge_right_none _
      (collectOptionalProps_lookup_not_mem webScenarioOptionalProps (by decide)),
      lookup_dictSet_ne _ _ (by decide), lookup_cons_eq_if, if_neg (by decide),
      lookup_cons_eq_if, if_pos rfl]
  have hB : ∀ steps : List Dict,
      (dictMerge [("name", wn), ("applicationid", aid), ("hostid", hid),
        ("steps", PyVal.list (steps.map PyVal.dict))]
        (collectOptionalProps w webScenarioOptionalProps)).lookup "applicationid" =
      Option.some aid := by
    intro steps
    rw [lookup_dictMerge_right_none _
      (collectOptionalProps_lookup_not_mem webScenarioOptionalProps (by decide)),
      lookup_cons_eq_if, if_neg (by decide), lookup_cons_eq_if, if_pos rfl]
  unfold get_web_check_params at h
  cases hraw : get_steps raw with
  | error e =>
      rw [hraw] at h
      exact absurd h (by simp [Bind.bind, Except.bind])
  | ok ns =>
      rw [hraw] at h
      simp only [Bind.bind, Except.bind] at h
      split at h
      all_goals try split at h
      all_goals try split at h
      all_goals try split at h
      all_goals try split at h
      all_goals
        first
          | exact Except.noConfusion h
          | (rw [← Except.ok.inj h]; first | exact hA _ | exact hB _)

theorem mainRun_autocreate_shape (p : ModuleParams) (env : RemoteEnv)
    (wn hid aid : PyVal) (hd : Dict) (hrest : List PyVal) (arest : List PyVal)
    (hstate : p.state ≠ "absent")
    (hcm : p.check_mode = false)
    (hname : p.web_check.lookup "web_check_name" = Option.some wn)
    (hhn : pyTruthy (get_value_by_key p.web_check "host_name") = true)
    (han : pyTruthy (get_value_by_key p.web_check "application_name") = true)
    (hhosts : env.hostList = PyVal.dict hd :: hrest)
    (hhid : hd.lookup "hostid" = Option.some hid)
    (happs : env.applicationList = [])
    (hcreate : env.createAppResult =
      PyVal.dict [("applicationids", PyVal.list (aid :: arest))]) :
    ∃ rest, (mainRun p env).2 =
      [RemoteCall.login, RemoteCall.hostGet (get_value_by_key p.web_check "host_name"),
       RemoteCall.webcheckGet wn hid,
       RemoteCall.hostGet (get_value_by_key p.web_check "host_name"),
       RemoteCall.applicationGet hid (get_value_by_key p.web_check "application_name"),
       RemoteCall.applicationCreate hid (get_value_by_key p.web_check "application_name")]
      ++ rest
    ∧ (rest = []
       ∨ ∃ ps, (rest = [RemoteCall.webcheckCreate ps] ∨ rest = [RemoteCall.webcheckUpdate ps])
           ∧ ps.lookup "applicationid" = Option.some aid) := by
  have hhost : get_host_id env (get_value_by_key p.web_check "host_name") =
      (Except.ok hid, [RemoteCall.hostGet (get_value_by_key p.web_check "host_name")]) := by
    unfold get_host_id
    rw [hhosts]
    simp [pySubscript, hhid]
  have happid : get_application_id p.check_mode env hid
      (get_value_by_key p.web_check "application_name") =
      (Except.ok aid,
       [RemoteCall.applicationGet hid (get_value_by_key p.web_check "application_name"),
        RemoteCall.applicationCreate hid (get_value_by_key p.web_check "application_name")]) := by
    unfold get_application_id create_application
    rw [happs, hcm, hcreate]
    simp [Bind.bind, Except.bind, pyLen, pySubscript, pyIndex0, Except.mapError]
  have hmp : ∀ obj : PyVal, ∃ rest,
      (mainPresent p env wn (get_value_by_key p.web_check "host_name") obj).2 =
        [RemoteCall.hostGet (get_value_by_key p.web_check "host_name"),
         RemoteCall.applicationGet hid (get_value_by_key p.web_check "application_name"),
         RemoteCall.applicationCreate hid (get_value_by_key p.web_check "application_name")]
        ++ rest
      ∧ (rest = []
         ∨ ∃ ps, (rest = [RemoteCall.webcheckCreate ps] ∨ rest = [RemoteCall.webcheckUpdate ps])
             ∧ ps.lookup "applicationid" = Option.some aid) := by
    intro obj
    unfold mainPresent
    rw [hhost]
    simp only [han, Bool.not_true, Bool.false_eq_true, if_false]
    rw [happid]
    simp only [hcm]
    by_cases hobj : pyTruthy obj = true
    · simp only [hobj, Bool.not_true, Bool.false_eq_true, if_false]
      unfold update_web_check
      cases hsub : pySubscript obj "httptestid" with
      | error o => exact ⟨[], by simp, Or.inl rfl⟩
      | ok tid =>
          cases hg : get_web_check_params wn hid aid
              (get_value_by_key p.web_check "steps")
              (collectOptionalProps p.web_check webScenarioOptionalProps) obj tid with
          | error o => exact ⟨[], by simp [hg], Or.inl rfl⟩
          | ok ps =>
              exact ⟨[RemoteCall.webcheckUpdate ps], by simp [hg],
                Or.inr ⟨ps, Or.inr rfl, get_web_check_params_ok_applicationid hg⟩⟩
    · simp only [Bool.not_eq_true] at hobj
      simp only [hobj, Bool.not_false, if_true]
      unfold create_web_check
      cases hg : get_web_check_params wn hid aid
          (get_value_by_key p.web_check "steps")
          (collectOptionalProps p.web_check webScenarioOptionalProps)
          PyVal.none PyVal.none with
      | error o => exact ⟨[], by simp [hg], Or.inl rfl⟩
      | ok ps =>
          exact ⟨[RemoteCall.webcheckCreate ps], by simp [hg],
            Or.inr ⟨ps, Or.inl rfl, get_web_check_params_ok_applicationid hg⟩⟩
  obtain ⟨rest, hr2, hdisj⟩ :=
    hmp (match env.webCheckList with | w :: _ => w | [] => PyVal.none)
  refine ⟨rest, ?_, hdisj⟩
  unfold mainRun get_web_check
  rw [hname]
  simp only [hhost, hhn, Bool.not_true, Bool.false_eq_true, if_false, hstate,
    ite_false, hr2]
  simp [hstate]

/-- Application-create calls only. -/
def isAppCreateCall : RemoteCall → Bool
  | RemoteCall.applicationCreate _ _ => true
  | _ => false

/-- C5: whenever the filtered application lookup returns zero matches and the
run proceeds on the present path (valid fields, real run), exactly one
application create call is issued in the whole run; it closes the read-only
six-call prefix of the trace, so it precedes any web-check create or update
call; and any web-check create/update call's parameters carry as application
identifier the FIRST id of the creation result. -/
theorem C5_application_autocreate (p : ModuleParams) (env : RemoteEnv)
    (wn hid aid : PyVal) (hd : Dict) (hrest : List PyVal) (arest : List PyVal)
    (hstate : p.state ≠ "absent")
    (hcm : p.check_mode = false)
    (hname : p.web_check.lookup "web_check_name" = Option.some wn)
    (hhn : pyTruthy (get_value_by_key p.web_check "host_name") = true)
    (han : pyTruthy (get_value_by_key p.web_check "application_name") = true)
    (hhosts : env.hostList = PyVal.dict hd :: hrest)
    (hhid : hd.lookup "hostid" = Option.some hid)
    (happs : env.applicationList = [])
    (hcreate : env.createAppResult =
      PyVal.dict [("applicationids", PyVal.list (aid :: arest))]) :
    ((mainRun p env).2.filter isAppCreateCall).length = 1
    ∧ (mainRun p env).2.take 6 =
      [RemoteCall.login, RemoteCall.hostGet (get_value_by_key p.web_check "host_name"),
       RemoteCall.webcheckGet wn hid,
       RemoteCall.hostGet (get_value_by_key p.web_check "host_name"),
       RemoteCall.applicationGet hid (get_value_by_key p.web_check "application_name"),
       RemoteCall.applicationCreate hid (get_value_by_key p.web_check "application_name")]
    ∧ ∃ rest, (mainRun p env).2 =
      [RemoteCall.login, RemoteCall.hostGet (get_value_by_key p.web_check "host_name"),
       RemoteCall.webcheckGet wn hid,
       RemoteCall.hostGet (get_value_by_key p.web_check "host_name"),
       RemoteCall.applicationGet hid (get_value_by_key p.web_check "application_name"),
       RemoteCall.applicationCreate hid (get_value_by_key p.web_check "application_name")]
      ++ rest
    ∧ (rest = []
       ∨ ∃ ps, (rest = [RemoteCall.webcheckCreate ps] ∨ rest = [RemoteCall.webcheckUpdate ps])
           ∧ ps.lookup "applicationid" = Option.some aid) := by
  obtain ⟨rest, h1, h2⟩ := mainRun_autocreate_shape p env wn hid aid hd hrest arest
    hstate hcm hname hhn han hhosts hhid happs hcreate
  refine ⟨?_, ?_, rest, h1, h2⟩
  · rw [h1, List.filter_append]
    rcases h2 with h2 | ⟨ps, hps, _⟩
    · rw [h2]
      simp [isAppCreateCall]
    · rcases hps with hps | hps <;> rw [hps] <;> simp [isAppCreateCall]
  · rw [h1]
    rw [show (6 : Nat) =
      ([RemoteCall.login, RemoteCall.hostGet (get_value_by_key p.web_check "host_name"),
        RemoteCall.webcheckGet wn hid,
        RemoteCall.hostGet (get_value_by_key p.web_check "host_name"),
        RemoteCall.applicationGet hid (get_value_by_key p.web_check "application_name"),
        RemoteCall.applicationCreate hid
          (get_value_by_key p.web_check "application_name")] : List RemoteCall).length
      from rfl, List.take_left]

/-- Parameters creating web check `wc` with application `app` on host `h`. -/
def c5Params : ModuleParams :=
  { web_check :=
      [("web_check_name", PyVal.str "wc"), ("host_name", PyVal.str "h"),
       ("application_name", PyVal.str "app"), ("steps", rawDesiredC)],
    state := "present", check_mode := false }

/-- A remote environment with one host, no applications (forcing creation) and
no web checks; creating an application yields id 42. -/
def c5Env : RemoteEnv :=
  { hostList := [PyVal.dict [("hostid", PyVal.int 1)]], applicationList := [],
    createAppResult := PyVal.dict [("applicationids", PyVal.list [PyVal.int 42])],
    webCheckList := [] }

/-- Witness for C5. -/
theorem C5_application_autocreate_witness :
    ((mainRun c5Params c5Env).2.filter isAppCreateCall).length = 1
    ∧ (mainRun c5Params c5Env).2.take 6 =
      [RemoteCall.login, RemoteCall.hostGet (PyVal.str "h"),
       RemoteCall.webcheckGet (PyVal.str "wc") (PyVal.int 1),
       RemoteCall.hostGet (PyVal.str "h"),
       RemoteCall.applicationGet (PyVal.int 1) (PyVal.str "app"),
       RemoteCall.applicationCreate (PyVal.int 1) (PyVal.str "app")] :=
  ⟨(C5_application_autocreate c5Params c5Env (PyVal.str "wc") (PyVal.int 1) (PyVal.int 42)
      [("hostid", PyVal.int 1)] [] [] (by decide) rfl rfl (by decide) (by decide)
      rfl rfl rfl rfl).1,
   (C5_application_autocreate c5Params c5Env (PyVal.str "wc") (PyVal.int 1) (PyVal.int 42)
      [("hostid", PyVal.int 1)] [] [] (by decide) rfl rfl (by decide) (by decide)
      rfl rfl rfl rfl).2.1⟩

/-! ## Claim C4 -/

theorem get_host_id_trace (env : RemoteEnv) (hn : PyVal) :
    (get_host_id env hn).2 = [RemoteCall.hostGet hn] := rfl

theorem delete_web_check_check_mode (obj : PyVal) :
    (delete_web_check true obj).2 = []
    ∧ ((delete_web_check false obj).2.filter isMutatingCall ≠ [] →
        (delete_web_check true obj).1 = Outcome.exited true Option.none) := by
  unfold delete_web_check
  cases h1 : pySubscript obj "httptestid" with
  | error o => exact ⟨rfl, fun hc => absurd rfl hc⟩
  | ok wid =>
      cases h2 : pySubscript obj "name" with
      | error o => exact ⟨rfl, fun hc => absurd rfl hc⟩
      | ok wname => exact ⟨rfl, fun _ => rfl⟩

theorem create_web_check_check_mode (wn hid aid st : PyVal) (opts : Dict) :
    (create_web_check true wn hid aid st opts).2 = []
    ∧ ((create_web_check false wn hid aid st opts).2.filter isMutatingCall ≠ [] →
        (create_web_check true wn hid aid st opts).1 = Outcome.exited true Option.none) := by
  unfold create_web_check
  cases hg : get_web_check_params wn hid aid st opts PyVal.none PyVal.none with
  | error o => exact ⟨rfl, fun hc => absurd rfl hc⟩
  | ok ps => exact ⟨rfl, fun _ => rfl⟩

theorem update_web_check_check_mode (obj wn hid aid st : PyVal) (opts : Dict) :
    (update_web_check true obj wn hid aid st opts).2 = []
    ∧ ((update_web_check false obj wn hid aid st opts).2.filter isMutatingCall ≠ [] →
        (update_web_check true obj wn hid aid st opts).1 = Outcome.exited true Option.none) := by
  unfold update_web_check
  cases h1 : pySubscript obj "httptestid" with
  | error o => exact ⟨rfl, fun hc => absurd rfl hc⟩
  | ok tid =>
      cases hg : get_web_check_params wn hid aid st opts obj tid with
      | error o =>
          refine ⟨by simp [hg], fun hc => absurd (by simp [hg]) hc⟩
      | ok ps =>
          refine ⟨by simp [hg], fun _ => by simp [hg]⟩

theorem mainPresent_check_mode (p1 p2 : ModuleParams) (env : RemoteEnv)
    (wn hn obj : PyVal) (h1 : p1.check_mode = true) (h2 : p2.check_mode = false)
    (hwc : p2.web_check = p1.web_check) :
    (mainPresent p1 env wn hn obj).2.filter isMutatingCall = []
    ∧ ((mainPresent p2 env wn hn obj).2.filter isMutatingCall ≠ [] →
        (mainPresent p1 env wn hn obj).1 = Outcome.exited true Option.none) := by
  unfold mainPresent
  rw [hwc]
  by_cases han : pyTruthy (get_value_by_key p1.web_check "application_name") = true
  · simp only [h1, h2, han, Bool.not_true, Bool.false_eq_true, if_false]
    rcases hgh : get_host_id env hn with ⟨res, t1⟩
    have ht1 : t1 = [RemoteCall.hostGet hn] := by
      have h2 := get_host_id_trace env hn
      rw [hgh] at h2
      exact h2
    subst ht1
    cases res with
    | error o =>
        exact ⟨by simp [isMutatingCall], fun hc => absurd (by simp [isMutatingCall]) hc⟩
    | ok hid =>
        cases happl : env.applicationList with
        | nil =>
            have hgaT : get_application_id true env hid
                (get_value_by_key p1.web_check "application_name") =
                (Except.error (Outcome.exited true Option.none),
                 [RemoteCall.applicationGet hid
                    (get_value_by_key p1.web_check "application_name")]) := by
              unfold get_application_id create_application
              rw [happl]
              rfl
            exact ⟨by simp [hgaT, isMutatingCall], fun _ => by simp [hgaT]⟩
        | cons a l =>
            cases hsub : pySubscript a "applicationid" with
            | error o =>
                have hga : ∀ cm : Bool, get_application_id cm env hid
                    (get_value_by_key p1.web_check "application_name") =
                    (Except.error (Outcome.failed ("Failed to get the application '"
                        ++ pyStr (get_value_by_key p1.web_check "application_name")
                        ++ "' id: " ++ o.text ++ ".")),
                     [RemoteCall.applicationGet hid
                        (get_value_by_key p1.web_check "application_name")]) := by
                  intro cm
                  unfold get_application_id
                  rw [happl]
                  simp [hsub, Except.mapError]
                refine ⟨by simp [hga, isMutatingCall], fun hc => absurd ?_ hc⟩
                simp [hga, isMutatingCall]
            | ok aid =>
                have hga : ∀ cm : Bool, get_application_id cm env hid
                    (get_value_by_key p1.web_check "application_name") =
                    (Except.ok aid,
                     [RemoteCall.applicationGet hid
                        (get_value_by_key p1.web_check "application_name")]) := by
                  intro cm
                  unfold get_application_id
                  rw [happl]
                  simp [hsub, Except.mapError]
                by_cases hobj : pyTruthy obj = true
                · obtain ⟨hu1, hu2⟩ := update_web_check_check_mode obj wn hid aid
                    (get_value_by_key p1.web_check "steps")
                    (collectOptionalProps p1.web_check webScenarioOptionalProps)
                  refine ⟨by simp [hga, hobj, hu1, isMutatingCall], ?_⟩
                  intro hc
                  have hcf : (update_web_check false obj wn hid aid
                      (get_value_by_key p1.web_check "steps")
                      (collectOptionalProps p1.web_check webScenarioOptionalProps)).2.filter
                        isMutatingCall ≠ [] := by
                    intro hnil
                    apply hc
                    simp [hga, hobj, List.filter_append, isMutatingCall, hnil]
                  simp [hga, hobj, hu2 hcf]
                · simp only [Bool.not_eq_true] at hobj
                  obtain ⟨hu1, hu2⟩ := create_web_check_check_mode wn hid aid
                    (get_value_by_key p1.web_check "steps")
                    (collectOptionalProps p1.web_check webScenarioOptionalProps)
                  refine ⟨by simp [hga, hobj, hu1, isMutatingCall], ?_⟩
                  intro hc
                  have hcf : (create_web_check false wn hid aid
                      (get_value_by_key p1.web_check "steps")
                      (collectOptionalProps p1.web_check webScenarioOptionalProps)).2.filter
                        isMutatingCall ≠ [] := by
                    intro hnil
                    apply hc
                    simp [hga, hobj, List.filter_append, isMutatingCall, hnil]
                  simp [hga, hobj, hu2 hcf]
  · simp only [Bool.not_eq_true] at han
    exact ⟨by simp [han], fun hc => absurd (by simp [han]) hc⟩

/-- C4: with check mode enabled, the run never issues a mutating remote call
(application create, web-check create/update/delete) — the remote state is
unchanged — and whenever the corresponding real run (same payload and state,
check mode off) would issue a mutating call, the check-mode run exits reporting
changed=true. -/
theorem C4_check_mode_no_mutation (p1 p2 : ModuleParams) (env : RemoteEnv)
    (h1 : p1.check_mode = true) (h2 : p2.check_mode = false)
    (hwc : p2.web_check = p1.web_check) (hst : p2.state = p1.state) :
    (mainRun p1 env).2.filter isMutatingCall = []
    ∧ ((mainRun p2 env).2.filter isMutatingCall ≠ [] →
        (mainRun p1 env).1 = Outcome.exited true Option.none) := by
  unfold mainRun
  rw [hwc, hst]
  cases hname : p1.web_check.lookup "web_check_name" with
  | none => exact ⟨rfl, fun hc => absurd rfl hc⟩
  | some wn =>
      by_cases hhn : pyTruthy (get_value_by_key p1.web_check "host_name") = true
      · simp only [hhn, Bool.not_true, Bool.false_eq_true, if_false]
        rcases hgh : get_host_id env (get_value_by_key p1.web_check "host_name") with ⟨res, t1⟩
        have ht1 : t1 = [RemoteCall.hostGet (get_value_by_key p1.web_check "host_name")] := by
          have hx := get_host_id_trace env (get_value_by_key p1.web_check "host_name")
          rw [hgh] at hx
          exact hx
        subst ht1
        cases res with
        | error o =>
            exact ⟨by simp [isMutatingCall], fun hc => absurd (by simp [isMutatingCall]) hc⟩
        | ok hid =>
            cases henv : env.webCheckList with
            | nil =>
                by_cases hstate : p1.state = "absent"
                · refine ⟨by simp [get_web_check, henv, hstate, isMutatingCall,
                      show pyTruthy PyVal.none = false from rfl], ?_⟩
                  intro hc
                  exact absurd (by simp [get_web_check, henv, hstate, isMutatingCall,
                    show pyTruthy PyVal.none = false from rfl]) hc
                · obtain ⟨hm1, hm2⟩ := mainPresent_check_mode p1 p2 env wn
                    (get_value_by_key p1.web_check "host_name") PyVal.none h1 h2 hwc
                  refine ⟨by simp [get_web_check, henv, hstate, hm1, isMutatingCall], ?_⟩
                  intro hc
                  have hcf : (mainPresent p2 env wn
                      (get_value_by_key p1.web_check "host_name") PyVal.none).2.filter
                        isMutatingCall ≠ [] := by
                    intro hnil
                    apply hc
                    simp [get_web_check, henv, hstate, List.filter_append, isMutatingCall, hnil]
                  simp [get_web_check, henv, hstate, hm2 hcf]
            | cons w ws =>
                by_cases hstate : p1.state = "absent"
                · by_cases hobj : pyTruthy w = true
                  · obtain ⟨hd1, hd2⟩ := delete_web_check_check_mode w
                    refine ⟨by simp [get_web_check, henv, hstate, hobj, h1, hd1,
                        isMutatingCall], ?_⟩
                    intro hc
                    have hcf : (delete_web_check false w).2.filter isMutatingCall ≠ [] := by
                      intro hnil
                      apply hc
                      simp [get_web_check, henv, hstate, hobj, h2, List.filter_append,
                        isMutatingCall, hnil]
                    simp [get_web_check, henv, hstate, hobj, h1, hd2 hcf]
                  · simp only [Bool.not_eq_true] at hobj
                    refine ⟨by simp [get_web_check, henv, hstate, hobj, isMutatingCall], ?_⟩
                    intro hc
                    exact absurd (by simp [get_web_check, henv, hstate, hobj,
                      isMutatingCall]) hc
                · obtain ⟨hm1, hm2⟩ := mainPresent_check_mode p1 p2 env wn
                    (get_value_by_key p1.web_check "host_name") w h1 h2 hwc
                  refine ⟨by simp [get_web_check, henv, hstate, hm1, isMutatingCall], ?_⟩
                  intro hc
                  have hcf : (mainPresent p2 env wn
                      (get_value_by_key p1.web_check "host_name") w).2.filter
                        isMutatingCall ≠ [] := by
                    intro hnil
                    apply hc
                    simp [get_web_check, henv, hstate, List.filter_append, isMutatingCall, hnil]
                  simp [get_web_check, henv, hstate, hm2 hcf]
      · simp only [Bool.not_eq_true] at hhn
        exact ⟨by simp [hhn, isMutatingCall],
          fun hc => absurd (by simp [hhn, isMutatingCall]) hc⟩

/-- The C5 witness scenario's parameters, with check mode enabled. -/
def c4CheckParams : ModuleParams :=
  { web_check := c5Params.web_check, state := "present", check_mode := true }

/-- Witness for C4: on a scenario whose real run creates an application and a
web check, the check-mode run issues no mutating call and exits changed=true. -/
theorem C4_check_mode_no_mutation_witness :
    (mainRun c4CheckParams c5Env).2.filter isMutatingCall = []
    ∧ (mainRun c4CheckParams c5Env).1 = Outcome.exited true Option.none :=
  ⟨(C4_check_mode_no_mutation c4CheckParams c5Params c5Env rfl rfl rfl rfl).1,
   (C4_check_mode_no_mutation c4CheckParams c5Params c5Env rfl rfl rfl rfl).2 (by decide)⟩
